import Mathlib

/-!
# Telegram voice bot (`main_voice.go`): quota gate, intent dispatch, read-only query executor

A shallow embedding of `main_voice.go`.

* Go strings are modelled by Lean `String`s, i.e. sequences of Unicode code points
  (well-formed UTF-8).  `len` is the UTF-8 byte length.
* The process-wide handle `db` is an explicit `DB` value threaded through the functions.
* External collaborators (language model, speech services, messaging channel, the SQL engine
  behind `db.Query`) are fields of an `Env`; every call that matters is recorded as an `Event`.
* A value of a column declared `DATE` reaches the program the way the driver `go-sqlite3` and
  `database/sql` hand it over to `Scan`: as a time, written into a Go string in the layout
  RFC3339 (`scanDate`).
* A statement text handed to `db.Query` yields rows (`Env.query`) and leaves a store
  (`Env.exec`, applied by `afterQueries`); the statements with a fixed text (`INSERT`,
  `UPDATE`, `CREATE TABLE IF NOT EXISTS`) are functions on `DB`.
-/

namespace VoiceBot

/-! ## Go `strings` / `unicode` primitives used by the program -/

/-- Go `unicode.IsSpace`: the Unicode White_Space code points. -/
def isSpace (c : Char) : Bool :=
  let n := c.toNat
  (0x09 ≤ n && n ≤ 0x0D) || n = 0x20 || n = 0x85 || n = 0xA0 || n = 0x1680 ||
  (0x2000 ≤ n && n ≤ 0x200A) || n = 0x2028 || n = 0x2029 || n = 0x202F || n = 0x205F ||
  n = 0x3000

/-- Go `unicode.ToUpper` on one code point.  The case table is reproduced for the Basic Latin,
Latin-1 Supplement and Cyrillic blocks and for the code points outside them whose upper case
lies in Basic Latin (dotless i, long s); any other code point is left unchanged. -/
def toUpperRune (c : Char) : Char :=
  let n := c.toNat
  if 0x61 ≤ n ∧ n ≤ 0x7A then Char.ofNat (n - 32)
  else if n = 0xB5 then Char.ofNat 0x39C
  else if 0xE0 ≤ n ∧ n ≤ 0xFE ∧ n ≠ 0xF7 then Char.ofNat (n - 32)
  else if n = 0xFF then Char.ofNat 0x178
  else if n = 0x131 then 'I'
  else if n = 0x17F then 'S'
  else if 0x430 ≤ n ∧ n ≤ 0x44F then Char.ofNat (n - 32)
  else if 0x450 ≤ n ∧ n ≤ 0x45F then Char.ofNat (n - 80)
  else if (0x460 ≤ n ∧ n ≤ 0x481) ∨ (0x48A ≤ n ∧ n ≤ 0x4BF) ∨ (0x4D0 ≤ n ∧ n ≤ 0x52F) then
    (if n % 2 = 1 then Char.ofNat (n - 1) else c)
  else if 0x4C1 ≤ n ∧ n ≤ 0x4CE then (if n % 2 = 0 then Char.ofNat (n - 1) else c)
  else if n = 0x4CF then Char.ofNat 0x4C0
  else c

/-- Go `unicode.ToLower` on one code point.  The case table is reproduced for the Basic Latin,
Latin-1 Supplement and Cyrillic blocks and for the code points outside them whose lower case
lies in those blocks (dotted capital I, Kelvin sign, Angstrom sign); any other code point is
left unchanged. -/
def toLowerRune (c : Char) : Char :=
  let n := c.toNat
  if 0x41 ≤ n ∧ n ≤ 0x5A then Char.ofNat (n + 32)
  else if 0xC0 ≤ n ∧ n ≤ 0xDE ∧ n ≠ 0xD7 then Char.ofNat (n + 32)
  else if n = 0x130 then 'i'
  else if n = 0x212A then 'k'
  else if n = 0x212B then Char.ofNat 0xE5
  else if 0x400 ≤ n ∧ n ≤ 0x40F then Char.ofNat (n + 80)
  else if 0x410 ≤ n ∧ n ≤ 0x42F then Char.ofNat (n + 32)
  else if (0x460 ≤ n ∧ n ≤ 0x481) ∨ (0x48A ≤ n ∧ n ≤ 0x4BF) ∨ (0x4D0 ≤ n ∧ n ≤ 0x52F) then
    (if n % 2 = 0 then Char.ofNat (n + 1) else c)
  else if n = 0x4C0 then Char.ofNat 0x4CF
  else if 0x4C1 ≤ n ∧ n ≤ 0x4CE then (if n % 2 = 1 then Char.ofNat (n + 1) else c)
  else c

/-- Go `strings.TrimSpace`: drop leading and trailing white space. -/
def TrimSpace (s : String) : String :=
  ⟨((s.data.dropWhile isSpace).reverse.dropWhile isSpace).reverse⟩

/-- Go `strings.ToUpper`: map every code point through `unicode.ToUpper`. -/
def ToUpper (s : String) : String := ⟨s.data.map toUpperRune⟩

/-- Go `strings.ToLower`: map every code point through `unicode.ToLower`. -/
def ToLower (s : String) : String := ⟨s.data.map toLowerRune⟩

/-- Go `strings.HasPrefix`. -/
def HasPrefix (s p : String) : Bool := p.data.isPrefixOf s.data

/-- Go `strings.HasSuffix`. -/
def HasSuffix (s p : String) : Bool := p.data.isSuffixOf s.data

/-- Go `strings.TrimPrefix`: remove `p` once from the front of `s` when it is there. -/
def TrimPrefix (s p : String) : String :=
  if HasPrefix s p then ⟨s.data.drop p.data.length⟩ else s

/-- Go `strings.TrimSuffix`: remove `p` once from the end of `s` when it is there. -/
def TrimSuffix (s p : String) : String :=
  if HasSuffix s p then ⟨s.data.take (s.data.length - p.data.length)⟩ else s

/-- Go `strings.Split(s, " ")[0]`: the part of `s` before its first space. -/
def splitSpaceFirst (s : String) : String := ⟨s.data.takeWhile (fun c => c != ' ')⟩

/-- Go `len(s)` for a string: the number of bytes of its UTF-8 encoding. -/
def len (s : String) : Nat := (s.data.map Char.utf8Size).sum

/-! ## The store -/

/-- The wall clock read by SQLite through `date('now')` and `datetime('now')`. -/
structure Clock where
  year : Nat
  month : Nat
  day : Nat
  hour : Nat
  minute : Nat
  second : Nat

/-- One decimal digit, as a character. -/
def digit (n : Nat) : Char := Char.ofNat (48 + n % 10)

/-- SQLite `date('now')`: the text `YYYY-MM-DD`. -/
def dateNow (c : Clock) : String :=
  ⟨[digit (c.year / 1000), digit (c.year / 100), digit (c.year / 10), digit c.year, '-',
    digit (c.month / 10), digit c.month, '-', digit (c.day / 10), digit c.day]⟩

/-- SQLite `datetime('now')`: the text `YYYY-MM-DD HH:MM:SS`. -/
def datetimeNow (c : Clock) : String :=
  ⟨(dateNow c).data ++ [' ', digit (c.hour / 10), digit c.hour, ':', digit (c.minute / 10),
    digit c.minute, ':', digit (c.second / 10), digit c.second]⟩

/-- A row of table `thoughts` (the `id` is the position in the table). -/
structure ThoughtRow where
  timestamp : String
  thought_text : String
  category : String
deriving DecidableEq, Repr

/-- A row of table `user_limits`, without its key `user_id`.  `request_count` is a count: the
program only ever writes `0`, `1` or an increment of the stored value. -/
structure LimitRow where
  username : String
  date : String
  request_count : Nat
deriving DecidableEq, Repr

/-- A row of table `messages`. -/
structure MessageRow where
  timestamp : String
  user_id : Int
  username : String
  message_type : String
  input_text : String
  response_type : String
  response_text : String
deriving DecidableEq, Repr

/-- The SQLite file behind the global `db`.  A table that does not exist is `none`; every
statement on it fails.  `user_limits` is keyed by its primary key `user_id`. -/
structure DB where
  thoughts : Option (List ThoughtRow)
  user_limits : Option (Int → Option LimitRow)
  messages : Option (List MessageRow)

/-- The file before any table was created. -/
def DB.empty : DB := ⟨none, none, none⟩

/-- Go `initDB` after a successful open and ping: two `CREATE TABLE IF NOT EXISTS`
statements, for `thoughts` and for `user_limits`. -/
def initDB (db : DB) : DB :=
  { db with
    thoughts := some (db.thoughts.getD []),
    user_limits := some (db.user_limits.getD (fun _ => none)) }

/-- Go `saveMessage`: one `INSERT INTO messages`. -/
def saveMessage (now : Clock) (db : DB) (userID : Int)
    (username messageType inputText responseType responseText : String) :
    Except String Unit × DB :=
  match db.messages with
  | none => (.error "ошибка записи в БД: no such table: messages", db)
  | some rows =>
    (.ok (), { db with messages := some (rows ++
      [⟨datetimeNow now, userID, username, messageType, inputText, responseType,
        responseText⟩]) })

/-- Go `saveThought`: one `INSERT INTO thoughts`. -/
def saveThought (now : Clock) (db : DB) (thoughtText category : String) :
    Except String Unit × DB :=
  match db.thoughts with
  | none => (.error "ошибка записи мысли в БД: no such table: thoughts", db)
  | some rows =>
    (.ok (), { db with thoughts := some (rows ++ [⟨datetimeNow now, thoughtText, category⟩]) })

/-- Table `user_limits` with the row of key `userID` written (inserted or replaced). -/
def DB.putLimit (db : DB) (t : Int → Option LimitRow) (userID : Int) (row : LimitRow) : DB :=
  { db with user_limits := some (Function.update t userID (some row)) }

/-- The constant `dailyLimit` of `checkUserLimit`. -/
def dailyLimit : Nat := 2

/-- The value of a decimal digit. -/
def digitValue (c : Char) : Option Nat :=
  if 48 ≤ c.toNat ∧ c.toNat ≤ 57 then some (c.toNat - 48) else none

/-- The value of a field of two decimal digits. -/
def twoDigits (a b : Char) : Option Nat :=
  match digitValue a, digitValue b with
  | some x, some y => some (10 * x + y)
  | _, _ => none

/-- The number of days of a month. -/
def daysIn (year month : Nat) : Nat :=
  if month = 2 then
    (if year % 4 = 0 ∧ (year % 100 ≠ 0 ∨ year % 400 = 0) then 29 else 28)
  else if month = 4 ∨ month = 6 ∨ month = 9 ∨ month = 11 then 30
  else 31

/-- Go `time.Parse` with the layout `2006-01-02`. -/
def parseDate : List Char → Option (Nat × Nat × Nat)
  | [y1, y2, y3, y4, '-', m1, m2, '-', d1, d2] =>
    match twoDigits y1 y2, twoDigits y3 y4, twoDigits m1 m2, twoDigits d1 d2 with
    | some a, some b, some m, some d =>
      if 1 ≤ m ∧ m ≤ 12 ∧ 1 ≤ d ∧ d ≤ daysIn (100 * a + b) m then some (100 * a + b, m, d)
      else none
    | _, _, _, _ => none
  | _ => none

/-- Go `time.Parse` with the layouts `15:04:05` and `15:04`. -/
def parseTimeOfDay : List Char → Option (Nat × Nat × Nat)
  | [h1, h2, ':', m1, m2, ':', s1, s2] =>
    match twoDigits h1 h2, twoDigits m1 m2, twoDigits s1 s2 with
    | some h, some m, some s => if h < 24 ∧ m < 60 ∧ s < 60 then some (h, m, s) else none
    | _, _, _ => none
  | [h1, h2, ':', m1, m2] =>
    match twoDigits h1 h2, twoDigits m1 m2 with
    | some h, some m => if h < 24 ∧ m < 60 then some (h, m, 0) else none
    | _, _ => none
  | _ => none

/-- Go `time.Time{}`, the zero time. -/
def zeroTime : Clock := ⟨1, 1, 1, 0, 0, 0⟩

/-- The `time.Time` that the driver `go-sqlite3` hands over for the text stored in a column
declared `DATE`: the text without a final `Z`, parsed with the first layout of the driver's
list that fits, the zero time when none fits.  The driver is outside the repository; of its
layouts those without fraction and zone are reproduced (`2006-01-02 15:04:05`,
`2006-01-02T15:04:05`, `2006-01-02 15:04`, `2006-01-02T15:04`, `2006-01-02`), a text in
another layout is taken as one that does not fit. -/
def parseTimestamp (stored : String) : Clock :=
  let s := (TrimSuffix stored "Z").data
  match parseDate (s.take 10) with
  | none => zeroTime
  | some (y, m, d) =>
    match s.drop 10 with
    | [] => ⟨y, m, d, 0, 0, 0⟩
    | sep :: rest =>
      if sep = ' ' ∨ sep = 'T' then
        match parseTimeOfDay rest with
        | some (h, mi, se) => ⟨y, m, d, h, mi, se⟩
        | none => zeroTime
      else zeroTime

/-- Go `t.Format(time.RFC3339Nano)` for a UTC time without fraction: `YYYY-MM-DDTHH:MM:SSZ`. -/
def formatRFC3339 (t : Clock) : String :=
  ⟨(dateNow t).data ++ ['T', digit (t.hour / 10), digit t.hour, ':', digit (t.minute / 10),
    digit t.minute, ':', digit (t.second / 10), digit t.second, 'Z']⟩

/-- The Go string that `Scan(&requestCount, &lastDate)` stores into `lastDate` for the text
stored in column `date`: the column is declared `DATE`, so the driver hands its value over as
a `time.Time`, and `database/sql` stores a `time.Time` into a `*string` in the layout
RFC3339. -/
def scanDate (stored : String) : String := formatRFC3339 (parseTimestamp stored)

/-- The outcome of `db.QueryRow(query, userID).Scan(&requestCount, &lastDate)` in
`checkUserLimit`: `sql.ErrNoRows`, another error, or the two scanned values. -/
inductive Lookup where
  | noRows
  | failed (err : String)
  | found (requestCount : Nat) (lastDate : String)
deriving DecidableEq, Repr

/-- The lookup `SELECT request_count, date FROM user_limits WHERE user_id = ?` on a store
that answers; it fails when the table does not exist. -/
def scanLimit (db : DB) (userID : Int) : Lookup :=
  match db.user_limits with
  | none => .failed "no such table: user_limits"
  | some t =>
    match t userID with
    | none => .noRows
    | some row => .found row.request_count (scanDate row.date)

/-- The statement `INSERT INTO user_limits (user_id, username, date, request_count)`: it takes
effect when the table exists and has no row of that key. -/
def DB.insertLimit (db : DB) (userID : Int) (row : LimitRow) : DB :=
  match db.user_limits with
  | none => db
  | some t =>
    match t userID with
    | none => db.putLimit t userID row
    | some _ => db

/-- The statement `UPDATE user_limits SET date = date('now'), request_count = 0
WHERE user_id = ?`. -/
def DB.resetLimit (now : Clock) (db : DB) (userID : Int) : DB :=
  match db.user_limits with
  | none => db
  | some t =>
    match t userID with
    | none => db
    | some row => db.putLimit t userID { row with date := dateNow now, request_count := 0 }

/-- Go `checkUserLimit` with the outcome `scan` of its lookup given, for any outcome: a
lookup can also fail on a store whose table and row are in place (a locked file, an I/O error,
a value that does not scan).  The result is `true` when the daily limit is exceeded; the
function has no error result.  The results of the `INSERT` and `UPDATE` are not inspected. -/
def checkUserLimitOn (scan : Lookup) (now : Clock) (db : DB) (userID : Int)
    (username : String) : Bool × DB :=
  if username = "roman8890" then (false, db)
  else
    match scan with
    | .noRows => (false, db.insertLimit userID ⟨username, dateNow now, 0⟩)
    | .failed _ => (false, db)
    | .found requestCount lastDate =>
      let today := splitSpaceFirst lastDate
      let currentDate := dateNow now
      if today ≠ currentDate then (false, db.resetLimit now userID)
      else if requestCount ≥ dailyLimit then (true, db)
      else (false, db)

/-- Go `checkUserLimit` on a store that answers the lookup. -/
def checkUserLimit (now : Clock) (db : DB) (userID : Int) (username : String) : Bool × DB :=
  checkUserLimitOn (scanLimit db userID) now db userID username

/-- Go `incrementUserUsage`: `UPDATE ... WHERE user_id = ? AND date = date('now')`, and when
no row was affected an `INSERT` with count `1`, which fails on an existing key. -/
def incrementUserUsage (now : Clock) (db : DB) (userID : Int) (username : String) :
    Except String Unit × DB :=
  if username = "roman8890" then (.ok (), db)
  else
    match db.user_limits with
    | none => (.error "ошибка увеличения счетчика: no such table: user_limits", db)
    | some t =>
      match t userID with
      | some row =>
        if row.date = dateNow now then
          (.ok (), db.putLimit t userID { row with request_count := row.request_count + 1 })
        else
          (.error "ошибка создания записи лимита: UNIQUE constraint failed: user_limits.user_id",
            db)
      | none =>
        (.ok (), db.putLimit t userID ⟨username, dateNow now, 1⟩)

/-- The row of `user_limits` for `userID`, when the table and the row exist. -/
def DB.limitOf (db : DB) (userID : Int) : Option LimitRow :=
  db.user_limits.bind fun t => t userID

/-- The gate of the loop applied to `n` consecutive messages of one user (none of them
`/start` or `/help`): for each message whether it was allowed (`checkUserLimit` returned
`false`) and whether the following `incrementUserUsage` returned an error. -/
def gateRun (now : Clock) (userID : Int) (username : String) : Nat → DB → List (Bool × Bool)
  | 0, _ => []
  | n + 1, db =>
    let chk := checkUserLimit now db userID username
    if chk.1 then (false, false) :: gateRun now userID username n chk.2
    else
      let inc := incrementUserUsage now chk.2 userID username
      (true, !inc.1.toBool) :: gateRun now userID username n inc.2

/-- Equality of Go results `(value, error)` is decidable. -/
instance instDecidableEqExcept {ε α : Type} [DecidableEq ε] [DecidableEq α] :
    DecidableEq (Except ε α)
  | .ok a, .ok b =>
    if h : a = b then isTrue (by rw [h]) else isFalse (by intro h'; cases h'; exact h rfl)
  | .error a, .error b =>
    if h : a = b then isTrue (by rw [h]) else isFalse (by intro h'; cases h'; exact h rfl)
  | .ok _, .error _ => isFalse (by intro h; cases h)
  | .error _, .ok _ => isFalse (by intro h; cases h)

/-! ## Observable calls -/

/-- The calls to collaborators and to the store that a run performs, in order. -/
inductive Event where
  | send (chatID : Int) (text : String)
  | sendVoice (chatID : Int) (caption : String) (ok : Bool)
  | chatCompletion (model system user : String)
  | query (sqlQuery : String)
  | textToSpeech (text : String)
  | saveThought (thoughtText category : String)
  | saveMessage (userID : Int)
      (username messageType inputText responseType responseText : String)
deriving DecidableEq, Repr

/-! ## Query executor -/

/-- A column value as `rows.Scan` stores it into an `interface{}`.  `bytes` is a `[]byte`,
given by the text it encodes; `other` stands for the remaining driver types (float, bool,
time) and carries their `%v` rendering. -/
inductive Value where
  | null
  | int (i : Int)
  | text (s : String)
  | bytes (b : String)
  | other (shown : String)
deriving DecidableEq, Repr

/-- Go `fmt` verb `%v` on a column value. -/
def Value.format : Value → String
  | .null => "<nil>"
  | .int i => toString i
  | .text s => s
  | .bytes b =>
    "[" ++ " ".intercalate ((b.data.flatMap String.utf8EncodeChar).map fun x => toString x.toNat)
      ++ "]"
  | .other shown => shown

/-- A Go `map[string]interface{}`: at most one entry per key.  The entries are kept in the
order of their latest assignment; that order is internal to the model, a `range` visits them in
the order a `RangeOrder` picks. -/
abbrev GoMap := List (String × Value)

/-- Go `row[col] = val`: the entry of `col` becomes `val`, any earlier entry of `col` is
dropped. -/
def GoMap.set (row : GoMap) (col : String) (val : Value) : GoMap :=
  row.filter (fun p => p.1 != col) ++ [(col, val)]

/-- The order in which a `range` over a map visits its entries.  Go leaves it unspecified; the
runtime picks one per loop (`order i row` is the order of the `i`-th `range`, some permutation
of the entries). -/
structure RangeOrder where
  order : Nat → GoMap → GoMap
  perm : ∀ i row, (order i row).Perm row

/-- The row stream a successful `db.Query` hands back: the column names (or the error of
`rows.Columns`), then for every `rows.Next()` that returned `true` the outcome of `rows.Scan`,
and the error, if any, that made `rows.Next()` return `false` (readable through `rows.Err`). -/
structure Rows where
  columns : Except String (List String)
  scans : List (Except String (List Value))
  err : Option String

/-- The body of the scan loop: the map built from one scanned row.  `values` has one slot per
column, `nil` until `Scan` fills it. -/
def rowMap (columns : List String) (values : List Value) : GoMap :=
  columns.enum.foldl
    (fun row p =>
      match values.getD p.1 .null with
      | .bytes b => row.set p.2 (.text b)
      | val => row.set p.2 val)
    []

/-- The loop `for rows.Next()` of `executeSQL`. -/
def scanRows (columns : List String) :
    List (Except String (List Value)) → List GoMap → Except String (List GoMap)
  | [], results => .ok results
  | .error e :: _, _ => .error ("ошибка сканирования строки: " ++ e)
  | .ok values :: rest, results => scanRows columns rest (results ++ [rowMap columns values])

/-- The inner loop `for col, val := range row`: one line per map entry. -/
def formatEntries (entries : GoMap) (resultText : String) : String :=
  entries.foldl (fun acc p => acc ++ ("  " ++ p.1 ++ ": " ++ p.2.format ++ "\n")) resultText

/-- The loop `for i, row := range results`, from index `i` on. -/
def formatRows (ord : RangeOrder) : Nat → List GoMap → String → String
  | _, [], resultText => resultText
  | i, row :: rest, resultText =>
    formatRows ord (i + 1) rest
      (formatEntries (ord.order i row) (resultText ++ ("Запись " ++ toString (i + 1) ++ ":\n"))
        ++ "\n")

/-- Go `executeSQL`: the value it returns.  `query` is the answer of `db.Query`; the second
component lists the statement texts handed to `db.Query`.  What such a text does to the store
is `afterQueries`, applied where the store is threaded. -/
def executeSQL (query : String → Except String Rows) (ord : RangeOrder) (sqlQuery : String) :
    Except String String × List Event :=
  let upperQuery := ToUpper (TrimSpace sqlQuery)
  if !HasPrefix upperQuery "SELECT" then (.error "разрешены только SELECT запросы", [])
  else
    match query sqlQuery with
    | .error e => (.error ("ошибка выполнения SQL: " ++ e), [.query sqlQuery])
    | .ok rows =>
      match rows.columns with
      | .error e => (.error ("ошибка получения колонок: " ++ e), [.query sqlQuery])
      | .ok columns =>
        match scanRows columns rows.scans [] with
        | .error e => (.error e, [.query sqlQuery])
        | .ok results =>
          if results.length = 0 then
            (.ok "Запрос выполнен успешно, но результатов не найдено.", [.query sqlQuery])
          else
            (.ok (formatRows ord 0 results
              ("Найдено записей: " ++ toString results.length ++ "\n\n")), [.query sqlQuery])

/-! ## Collaborators and language-model calls -/

/-- The collaborators of one message-handling step and the process environment.  `query` and
`exec` are the two sides of `db.Query` on the read-write handle of the global `db`: the rows a
statement text yields, and the store the engine leaves after running the text (a plain `SELECT`
leaves the store as it was; a text that goes on after a `;` can create, change or drop
tables). -/
structure Env where
  now : Clock
  OPENAI_MODEL : String
  CreateChatCompletion : (model system user : String) → Except String (List String)
  query : String → Except String Rows
  exec : DB → String → DB
  rangeOrder : RangeOrder
  GetFile : String → Except String String
  httpGet : String → Except String String
  CreateTemp : String → Except String String
  ioCopy : String → String → Except String Unit
  speechToText : String → Except String String
  textToSpeech : String → Except String String
  sendVoice : (chatID : Int) → (file caption : String) → Except String Unit

/-- The model name: `OPENAI_MODEL`, or the default when it is not set. -/
def Env.model (env : Env) : String :=
  if env.OPENAI_MODEL = "" then "gpt-4o-mini" else env.OPENAI_MODEL

/-- The system prompt of `generateSQL`. -/
def sqlSystemPrompt : String :=
  "Ты эксперт SQL. Преобразуй запрос пользователя в SQL запрос для SQLite базы данных.\n" ++
  "\n" ++
  "База данных содержит ДВЕ таблицы:\n" ++
  "\n" ++
  "1. Таблица messages (история сообщений):\n" ++
  "- id (INTEGER PRIMARY KEY)\n" ++
  "- timestamp (DATETIME)\n" ++
  "- user_id (INTEGER)\n" ++
  "- username (TEXT)\n" ++
  "- message_type (TEXT) - тип сообщения: 'text' или 'voice'\n" ++
  "- input_text (TEXT) - текст входящего сообщения\n" ++
  "- response_type (TEXT) - тип ответа\n" ++
  "- response_text (TEXT) - текст ответа\n" ++
  "\n" ++
  "2. Таблица thoughts (мысли/заметки):\n" ++
  "- id (INTEGER PRIMARY KEY)\n" ++
  "- timestamp (DATETIME)\n" ++
  "- thought_text (TEXT) - текст мысли\n" ++
  "- category (TEXT) - категория мысли\n" ++
  "\n" ++
  "ВАЖНО:\n" ++
  "1. Отвечай ТОЛЬКО SQL запросом, без объяснений\n" ++
  "2. Используй SELECT запросы\n" ++
  "3. Ограничивай результаты через LIMIT если нужно\n" ++
  "4. НЕ используй DELETE, DROP, UPDATE, INSERT\n" ++
  "5. По умолчанию НЕ включай в SELECT поля user_id и username (если пользователь явно не спрашивает про пользователей)\n" ++
  "6. Используй LIMIT 10 по умолчанию для запросов \"покажи записи\"\n" ++
  "\n" ++
  "ШАБЛОНЫ ЗАПРОСОВ:\n" ++
  "\n" ++
  "Подсчет:\n" ++
  "- \"сколько сообщений\" → SELECT COUNT(*) as count FROM messages\n" ++
  "- \"сколько голосовых\" → SELECT COUNT(*) as count FROM messages WHERE message_type='voice'\n" ++
  "- \"сколько текстовых\" → SELECT COUNT(*) as count FROM messages WHERE message_type='text'\n" ++
  "\n" ++
  "Последние записи:\n" ++
  "- \"последние N записей\" → SELECT id, timestamp, message_type, input_text, response_text FROM messages ORDER BY timestamp DESC LIMIT N\n" ++
  "- \"последнее сообщение\" → SELECT id, timestamp, message_type, input_text, response_text FROM messages ORDER BY timestamp DESC LIMIT 1\n" ++
  "\n" ++
  "Поиск по содержанию:\n" ++
  "- \"найди сообщения про [тема]\" → SELECT id, timestamp, input_text FROM messages WHERE input_text LIKE '%тема%' LIMIT 10\n" ++
  "\n" ++
  "Статистика по типам:\n" ++
  "- \"статистика по типам\" → SELECT message_type, COUNT(*) as count FROM messages GROUP BY message_type\n" ++
  "\n" ++
  "Временные запросы:\n" ++
  "- \"сегодняшние сообщения\" → SELECT COUNT(*) as count FROM messages WHERE DATE(timestamp) = DATE('now')\n" ++
  "- \"за последний час\" → SELECT COUNT(*) as count FROM messages WHERE timestamp >= datetime('now', '-1 hour')\n" ++
  "\n" ++
  "ЗАПРОСЫ К ТАБЛИЦЕ МЫСЛЕЙ (thoughts):\n" ++
  "\n" ++
  "Подсчет мыслей:\n" ++
  "- \"сколько мыслей\" → SELECT COUNT(*) as count FROM thoughts\n" ++
  "- \"сколько мыслей по категории [название]\" → SELECT COUNT(*) as count FROM thoughts WHERE category='название'\n" ++
  "\n" ++
  "Последние мысли:\n" ++
  "- \"последние N мыслей\" → SELECT id, timestamp, thought_text, category FROM thoughts ORDER BY timestamp DESC LIMIT N\n" ++
  "- \"последняя мысль\" → SELECT id, timestamp, thought_text, category FROM thoughts ORDER BY timestamp DESC LIMIT 1\n" ++
  "\n" ++
  "Поиск мыслей:\n" ++
  "- \"найди мысли про [тема]\" → SELECT id, timestamp, thought_text FROM thoughts WHERE thought_text LIKE '%тема%' LIMIT 10\n" ++
  "\n" ++
  "Мысли по категориям:\n" ++
  "- \"покажи все категории мыслей\" → SELECT DISTINCT category FROM thoughts WHERE category IS NOT NULL\n" ++
  "- \"мысли категории [название]\" → SELECT id, timestamp, thought_text FROM thoughts WHERE category='название' LIMIT 10"

/-- The system prompt of `formatSQLResults`. -/
def formatSystemPrompt : String :=
  "Ты голосовой помощник. Преобразуй результаты SQL запроса в краткий, понятный голосовой ответ на русском языке.\n" ++
  "\n" ++
  "ВАЖНО:\n" ++
  "1. Ответ должен быть КОРОТКИМ (до 30 слов)\n" ++
  "2. Говори по-человечески, как будто объясняешь другу\n" ++
  "3. Не упоминай технические детали (SQL, базы данных)\n" ++
  "4. Если результатов много, обобщи информацию"

/-- The system prompt of `getChatGPTResponse`. -/
def chatSystemPrompt : String :=
  "Ты эксперт IT Go Backend, отвечай коротко и по делу. Меньше 20 слов в ответе."

/-- The post-processing of `generateSQL` on the content of the first choice. -/
def stripFence (content : String) : String :=
  let sqlQuery := TrimSpace content
  let sqlQuery := TrimPrefix sqlQuery "```sql"
  let sqlQuery := TrimPrefix sqlQuery "```"
  let sqlQuery := TrimSuffix sqlQuery "```"
  TrimSpace sqlQuery

/-- Go `generateSQL`. -/
def generateSQL (env : Env) (userQuery : String) : Except String String × List Event :=
  let call := Event.chatCompletion env.model sqlSystemPrompt userQuery
  match env.CreateChatCompletion env.model sqlSystemPrompt userQuery with
  | .error e => (.error ("ошибка генерации SQL: " ++ e), [call])
  | .ok [] => (.error "GPT не вернул SQL запрос", [call])
  | .ok (content :: _) => (.ok (stripFence content), [call])

/-- Go `formatSQLResults`. -/
def formatSQLResults (env : Env) (userQuery sqlResults : String) :
    Except String String × List Event :=
  let prompt :=
    "Вопрос пользователя: " ++ userQuery ++ "\n\nРезультаты из базы данных:\n" ++ sqlResults
  let call := Event.chatCompletion env.model formatSystemPrompt prompt
  match env.CreateChatCompletion env.model formatSystemPrompt prompt with
  | .error e => (.error ("ошибка форматирования ответа: " ++ e), [call])
  | .ok [] => (.ok "Не удалось сформировать ответ.", [call])
  | .ok (content :: _) => (.ok (TrimSpace content), [call])

/-- Go `getChatGPTResponse`. -/
def getChatGPTResponse (env : Env) (userMessage : String) : Except String String × List Event :=
  let call := Event.chatCompletion env.model chatSystemPrompt userMessage
  match env.CreateChatCompletion env.model chatSystemPrompt userMessage with
  | .error e => (.error ("ошибка ChatGPT: " ++ e), [call])
  | .ok [] => (.ok "Извините, не удалось получить ответ.", [call])
  | .ok (content :: _) => (.ok content, [call])

/-! ## The message loop of `main` -/

/-- The fields of `update.Message` the loop reads.  `isCommand` and `command` are the results
of the library methods `IsCommand()` and `Command()`; `voice` is `Voice.FileID` when the
message carries a voice note. -/
structure Message where
  chatID : Int
  fromID : Int
  fromUserName : String
  text : String
  isCommand : Bool
  command : String
  voice : Option String

/-- The branch the keyword test of the loop selects, with the text handed to that branch. -/
inductive Intent where
  | NoteCapture (remainder : String)
  | StructuredQuery (remainder : String)
  | Chat (fullText : String)
deriving DecidableEq, Repr

/-- The keyword test of the text branch (`lowerText`, the two `HasPrefix` tests and the
`TrimPrefix` of the selected branch). -/
def textIntent (userText : String) : Intent :=
  let lowerText := ToLower (TrimSpace userText)
  if HasPrefix lowerText "мысль" then
    .NoteCapture (TrimSpace (TrimPrefix lowerText "мысль"))
  else if HasPrefix lowerText "база" then
    .StructuredQuery (TrimSpace (TrimPrefix lowerText "база"))
  else .Chat userText

/-- The keyword test of the voice branch, on the recognized text. -/
def voiceIntent (recognizedText : String) : Intent :=
  let lowerText := ToLower (TrimSpace recognizedText)
  if HasPrefix lowerText "мысль" then
    .NoteCapture (TrimSpace (TrimPrefix lowerText "мысль"))
  else if HasPrefix lowerText "база" then
    .StructuredQuery (TrimSpace (TrimPrefix lowerText "база"))
  else .Chat recognizedText

/-- The text of the reply to a message over the daily limit. -/
def quotaNotice : String :=
  "⏳ Вы достигли дневного лимита запросов (2 запроса в день).\n\n" ++
  "Лимит обновляется каждый день в 00:00 UTC.\n" ++
  "Спасибо за понимание! 🙏"

/-- The text of the reply to a note from a sender other than the owner. -/
def permissionDenied : String := "❌ У вас нет доступа к этой функции"

/-- The quota gate at the top of the loop body: `none` when the message goes on, the reply
when it is turned away.  The result of `incrementUserUsage` is discarded. -/
def quotaGate (env : Env) (db : DB) (m : Message) : Option (List Event) × DB :=
  if !m.isCommand || (m.isCommand && m.command != "start" && m.command != "help") then
    let username := m.fromUserName
    let userID := m.fromID
    let chk := checkUserLimit env.now db userID username
    if chk.1 then
      (some [.send m.chatID quotaNotice], chk.2)
    else
      (none, (incrementUserUsage env.now chk.2 userID username).2)
  else (none, db)

/-- The store after the statement texts of a trace went through `db.Query`: `executeSQL`
hands every text that passed its guard to `db.Query`, and the engine runs the text whatever
follows its first word. -/
def afterQueries (env : Env) (db : DB) (trace : List Event) : DB :=
  trace.foldl
    (fun d e =>
      match e with
      | .query sqlQuery => env.exec d sqlQuery
      | _ => d)
    db

/-- The three-step structured-query pipeline shared in shape by both branches: translate,
execute, compress.  Yields the answer, or the error reply of the failing stage. -/
def databaseAnswer (env : Env) (chatID : Int) (userQuery : String) :
    Except Unit String × List Event :=
  let status := Event.send chatID "💾 Обрабатываю запрос к базе данных..."
  let gen := generateSQL env userQuery
  match gen.1 with
  | .error err =>
    (.error (), status :: gen.2 ++ [.send chatID ("❌ Ошибка генерации SQL: " ++ err)])
  | .ok sqlQuery =>
    let exe := executeSQL env.query env.rangeOrder sqlQuery
    match exe.1 with
    | .error err =>
      (.error (), status :: gen.2 ++ exe.2 ++
        [.send chatID ("❌ Ошибка выполнения запроса: " ++ err)])
    | .ok sqlResults =>
      let fmt := formatSQLResults env userQuery sqlResults
      match fmt.1 with
      | .error err =>
        (.error (), status :: gen.2 ++ exe.2 ++ fmt.2 ++
          [.send chatID ("❌ Ошибка форматирования: " ++ err)])
      | .ok gptResponse => (.ok gptResponse, status :: gen.2 ++ exe.2 ++ fmt.2)

/-- The note branch, the same in the voice and in the text branch: permission test, empty
note test, `saveThought`.  Yields the spoken confirmation, or the reply that ends the step. -/
def noteAnswer (env : Env) (db : DB) (m : Message) (thoughtText : String) :
    (Except Unit String × List Event) × DB :=
  if m.fromUserName ≠ "roman8890" then
    ((.error (), [.send m.chatID permissionDenied]), db)
  else if thoughtText = "" then
    ((.error (), [.send m.chatID "❌ Укажите текст мысли после слова 'мысль'"]), db)
  else
    let saved := saveThought env.now db thoughtText "general"
    match saved.1 with
    | .error err =>
      ((.error (), [.saveThought thoughtText "general",
        .send m.chatID ("❌ Ошибка сохранения: " ++ err)]), saved.2)
    | .ok _ => ((.ok "Мысль сохранена", [.saveThought thoughtText "general"]), saved.2)

/-- The end of the text branch: length ceiling, synthesis, delivery, and the record of the
exchange when the delivery succeeded. -/
def textDeliver (env : Env) (db : DB) (m : Message) (userText gptResponse : String) :
    DB × List Event :=
  if len gptResponse > 500 then
    (db, [.send m.chatID ("📝 " ++ gptResponse ++
      "\n\n⚠️ Ответ слишком длинный для озвучивания (макс. 500 символов)")])
  else
    let status := Event.send m.chatID "🎤 Генерирую голосовое сообщение..."
    match env.textToSpeech gptResponse with
    | .error err =>
      (db, [status, .textToSpeech gptResponse,
        .send m.chatID ("📝 " ++ gptResponse ++ "\n\n❌ Ошибка генерации голоса: " ++ err)])
    | .ok _ =>
      match env.CreateTemp "voice-*.mp3" with
      | .error _ => (db, [status, .textToSpeech gptResponse])
      | .ok tmpFile =>
        let caption := "🔊 " ++ gptResponse
        match env.sendVoice m.chatID tmpFile caption with
        | .error _ =>
          (db, [status, .textToSpeech gptResponse, .sendVoice m.chatID caption false])
        | .ok _ =>
          ((saveMessage env.now db m.fromID m.fromUserName "text" userText "voice"
              gptResponse).2,
            [status, .textToSpeech gptResponse, .sendVoice m.chatID caption true,
              .saveMessage m.fromID m.fromUserName "text" userText "voice" gptResponse])

/-- The end of the voice branch: length ceiling, synthesis, delivery, and the record of the
exchange when the delivery succeeded. -/
def voiceDeliver (env : Env) (db : DB) (m : Message) (recognizedText gptResponse : String) :
    DB × List Event :=
  if len gptResponse > 500 then
    (db, [.send m.chatID ("📝 Ответ:\n" ++ gptResponse ++
      "\n\n⚠️ Ответ слишком длинный для озвучивания")])
  else
    let status := Event.send m.chatID "🎤 Генерирую голосовое сообщение..."
    match env.textToSpeech gptResponse with
    | .error err =>
      (db, [status, .textToSpeech gptResponse,
        .send m.chatID ("📝 " ++ gptResponse ++ "\n\n❌ Ошибка генерации голоса: " ++ err)])
    | .ok _ =>
      match env.CreateTemp "voice-response-*.mp3" with
      | .error _ => (db, [status, .textToSpeech gptResponse])
      | .ok tmpFile2 =>
        let caption := "🔊 " ++ gptResponse
        match env.sendVoice m.chatID tmpFile2 caption with
        | .error _ =>
          (db, [status, .textToSpeech gptResponse, .sendVoice m.chatID caption false])
        | .ok _ =>
          ((saveMessage env.now db m.fromID m.fromUserName "voice" recognizedText "voice"
              gptResponse).2,
            [status, .textToSpeech gptResponse, .sendVoice m.chatID caption true,
              .saveMessage m.fromID m.fromUserName "voice" recognizedText "voice"
                gptResponse])

/-- The text branch (`update.Message.Text != ""`, not a command). -/
def textBranch (env : Env) (db : DB) (m : Message) : DB × List Event :=
  let userText := m.text
  match textIntent userText with
  | .NoteCapture thoughtText =>
    let note := noteAnswer env db m thoughtText
    match note.1.1 with
    | .error _ => (note.2, note.1.2)
    | .ok gptResponse =>
      let out := textDeliver env note.2 m userText gptResponse
      (out.1, note.1.2 ++ out.2)
  | .StructuredQuery userQuery =>
    let ans := databaseAnswer env m.chatID userQuery
    let queried := afterQueries env db ans.2
    match ans.1 with
    | .error _ => (queried, ans.2)
    | .ok gptResponse =>
      let out := textDeliver env queried m userText gptResponse
      (out.1, ans.2 ++ out.2)
  | .Chat fullText =>
    let status := Event.send m.chatID "🤖 Думаю над ответом..."
    let chat := getChatGPTResponse env fullText
    match chat.1 with
    | .error err =>
      (db, status :: chat.2 ++
        [.send m.chatID ("❌ Ошибка получения ответа от ChatGPT: " ++ err)])
    | .ok gptResponse =>
      let out := textDeliver env db m userText gptResponse
      (out.1, status :: chat.2 ++ out.2)

/-- The voice branch after a successful recognition. -/
def voiceRecognized (env : Env) (db : DB) (m : Message) (recognizedText : String) :
    DB × List Event :=
  match voiceIntent recognizedText with
  | .NoteCapture thoughtText =>
    let note := noteAnswer env db m thoughtText
    match note.1.1 with
    | .error _ => (note.2, note.1.2)
    | .ok gptResponse =>
      let out := voiceDeliver env note.2 m recognizedText gptResponse
      (out.1, note.1.2 ++ out.2)
  | .StructuredQuery userQuery =>
    let ans := databaseAnswer env m.chatID userQuery
    let queried := afterQueries env db ans.2
    match ans.1 with
    | .error _ => (queried, ans.2)
    | .ok gptResponse =>
      let out := voiceDeliver env queried m recognizedText gptResponse
      (out.1, ans.2 ++ out.2)
  | .Chat fullText =>
    let status := Event.send m.chatID
      ("🤖 Вы сказали: \"" ++ recognizedText ++ "\"\n\nДумаю над ответом...")
    let chat := getChatGPTResponse env fullText
    match chat.1 with
    | .error err =>
      (db, status :: chat.2 ++
        [.send m.chatID ("❌ Ошибка получения ответа от ChatGPT: " ++ err)])
    | .ok gptResponse =>
      let out := voiceDeliver env db m recognizedText gptResponse
      (out.1, status :: chat.2 ++ out.2)

/-- The voice branch (`update.Message.Voice != nil`): fetch the file, store it, recognize the
speech, then answer. -/
def voiceBranch (env : Env) (db : DB) (m : Message) (fileID : String) : DB × List Event :=
  let status := Event.send m.chatID "🎧 Распознаю голос..."
  match env.GetFile fileID with
  | .error _ => (db, [status, .send m.chatID "❌ Ошибка получения голосового файла"])
  | .ok fileURL =>
    match env.httpGet fileURL with
    | .error _ => (db, [status])
    | .ok body =>
      match env.CreateTemp "voice-*.ogg" with
      | .error _ => (db, [status])
      | .ok tmpFileName =>
        match env.ioCopy tmpFileName body with
        | .error _ => (db, [status])
        | .ok _ =>
          match env.speechToText tmpFileName with
          | .error err => (db, [status, .send m.chatID ("❌ Ошибка распознавания: " ++ err)])
          | .ok recognizedText =>
            let out := voiceRecognized env db m recognizedText
            (out.1, status :: out.2)

/-- The text of the `/start` reply. -/
def startText : String :=
  "🎙️ Привет! Я голосовой бот с ChatGPT и ElevenLabs!\n\n" ++
  "✨ Что я умею:\n" ++
  "🎤 Голос → GPT → Голос\n" ++
  "📝 Текст → GPT → Голос\n" ++
  "🔊 /voice [текст] → Голос\n\n" ++
  "Команды:\n" ++
  "/voice [текст] - просто озвучить текст\n" ++
  "/help - помощь\n\n" ++
  "💡 Попробуйте задать любой вопрос!\n\n" ++
  "Пишите или говорите - я отвечу голосом! 🤖🔊"

/-- The text of the `/help` reply. -/
def helpText : String :=
  "🎙️ Как я работаю:\n\n" ++
  "1️⃣ 🎤 ГОЛОСОВОЕ сообщение:\n" ++
  "   → ElevenLabs STT → ChatGPT → ElevenLabs TTS\n\n" ++
  "2️⃣ 📝 ТЕКСТ:\n" ++
  "   → ChatGPT → ElevenLabs TTS\n\n" ++
  "3️⃣ 🔊 /voice [текст]:\n" ++
  "   → Просто озвучивает текст\n\n" ++
  "Технологии:\n" ++
  "🤖 ChatGPT (gpt-4o-mini)\n" ++
  "🎤 ElevenLabs STT (scribe_v2)\n" ++
  "🔊 ElevenLabs TTS (multilingual_v2)\n\n" ++
  "⏳ Лимит: 2 запроса в день"

/-- The command switch (`update.Message.IsCommand()`). -/
def commandBranch (env : Env) (db : DB) (m : Message) : DB × List Event :=
  if m.command = "start" then (db, [.send m.chatID startText])
  else if m.command = "help" then (db, [.send m.chatID helpText])
  else if m.command = "voice" then
    let text := TrimSpace (TrimPrefix m.text "/voice")
    if text = "" then
      (db, [.send m.chatID "Укажите текст после команды:\n/voice Ваш текст здесь"])
    else
      let status := Event.send m.chatID "🎤 Генерирую голосовое сообщение..."
      match env.textToSpeech text with
      | .error err =>
        (db, [status, .textToSpeech text,
          .send m.chatID ("❌ Ошибка генерации голоса: " ++ err)])
      | .ok audioData =>
        match env.CreateTemp "voice-*.mp3" with
        | .error _ => (db, [status, .textToSpeech text])
        | .ok tmpFile =>
          match env.ioCopy tmpFile audioData with
          | .error _ => (db, [status, .textToSpeech text])
          | .ok _ =>
            let caption := "🔊 " ++ text
            match env.sendVoice m.chatID tmpFile caption with
            | .error _ =>
              (db, [status, .textToSpeech text, .sendVoice m.chatID caption false,
                .send m.chatID "❌ Ошибка отправки голосового сообщения"])
            | .ok _ => (db, [status, .textToSpeech text, .sendVoice m.chatID caption true])
  else (db, [.send m.chatID "Неизвестная команда. Используйте /help"])

/-- One iteration of the loop `for update := range updates` of `main`. -/
def handleUpdate (env : Env) (db : DB) (message : Option Message) : DB × List Event :=
  match message with
  | none => (db, [])
  | some m =>
    let gate := quotaGate env db m
    match gate.1 with
    | some reply => (gate.2, reply)
    | none =>
      match m.voice with
      | some fileID => voiceBranch env gate.2 m fileID
      | none =>
        if m.isCommand then commandBranch env gate.2 m
        else if m.text ≠ "" then textBranch env gate.2 m
        else (gate.2, [])


/-- The store after the loop handled a sequence of updates, each with the collaborators of
its moment. -/
def handleAll (db : DB) (updates : List (Env × Option Message)) : DB :=
  updates.foldl (fun d u => (handleUpdate u.1 d u.2).1) db

/-- An event that is a call of `saveMessage`. -/
def Event.isSaveMessage : Event → Bool
  | .saveMessage .. => true
  | _ => false

/-- An event that is a call of `saveThought`. -/
def Event.isSaveThought : Event → Bool
  | .saveThought .. => true
  | _ => false

/-- A trace without any call of `saveMessage` or `saveThought`. -/
def Quiet (trace : List Event) : Prop :=
  ∀ x ∈ trace, x.isSaveMessage = false ∧ x.isSaveThought = false

/-- A trace in which `saveMessage` is either absent, or is the last call and comes right after
a voice delivery that reported success. -/
def SavedOnlyAfterDelivery (trace : List Event) : Prop :=
  (∀ x ∈ trace, x.isSaveMessage = false) ∨
  ∃ pre chatID caption e, trace = pre ++ [.sendVoice chatID caption true, e] ∧
    e.isSaveMessage = true ∧ ∀ x ∈ pre, x.isSaveMessage = false

/-- What the trace of every branch of the loop guarantees: the exchange is recorded only right
after a successful delivery, and for a sender other than the owner no `saveThought` is
called. -/
def BranchOK (m : Message) (trace : List Event) : Prop :=
  SavedOnlyAfterDelivery trace ∧
  (m.fromUserName ≠ "roman8890" → ∀ x ∈ trace, x.isSaveThought = false)

/-- The classification in the words of the specification: with `n` the lower-cased, trimmed
text, a text whose `n` starts with the note keyword is a note with the trimmed rest of `n`,
else a text whose `n` starts with the database keyword is a structured query with the trimmed
rest of `n`, else it is chat with the original text. -/
def Classify (t : String) : Intent :=
  let n := ToLower (TrimSpace t)
  if "мысль".data <+: n.data then .NoteCapture (TrimSpace ⟨n.data.drop 5⟩)
  else if "база".data <+: n.data then .StructuredQuery (TrimSpace ⟨n.data.drop 4⟩)
  else .Chat t

/-- The conversion of a scanned value before it is stored in the row map: a byte sequence
becomes text. -/
def asText : Value → Value
  | .bytes b => .text b
  | v => v

/-- The cells of one scanned row in column order: column name and value, byte sequences as
text. -/
def columnValues (columns : List String) (values : List Value) : List (String × Value) :=
  columns.enum.map fun p => (p.2, asText (values.getD p.1 .null))

/-- One entry per distinct name: an entry is kept when no later entry carries its name. -/
def lastEntries : List (String × Value) → List (String × Value)
  | [] => []
  | p :: rest =>
    if rest.any (fun q => q.1 == p.1) then lastEntries rest else p :: lastEntries rest

/-- The line `  column: value` of a rendered row. -/
def renderLine (p : String × Value) : String := "  " ++ p.1 ++ ": " ++ p.2.format ++ "\n"

/-- The concatenation of a list of texts. -/
def concatAll : List String → String
  | [] => ""
  | s :: rest => s ++ concatAll rest

/-- The block of the row numbered `i`: its title, one line per entry, an empty line. -/
def renderBlock (i : Nat) (entries : List (String × Value)) : String :=
  "Запись " ++ toString i ++ ":\n" ++ concatAll (entries.map renderLine) ++ "\n"

/-- The blocks numbered from `i + 1` on, one after the other. -/
def renderFrom : Nat → List (List (String × Value)) → String
  | _, [] => ""
  | i, entries :: rest => renderBlock (i + 1) entries ++ renderFrom (i + 1) rest

/-- The rendering of a non-empty result: the count, then the numbered blocks. -/
def renderBlocks (blocks : List (List (String × Value))) : String :=
  "Найдено записей: " ++ toString blocks.length ++ "\n\n" ++ renderFrom 0 blocks

/-- The rendering the specification describes: for each row one line per column, in the column
order returned by the store. -/
def claimedRendering (columns : List String) (rs : List (List Value)) : String :=
  renderBlocks (rs.map (columnValues columns))

/-- The entries of the row maps in the order their `range` loops visit them, the first loop
being numbered `i`. -/
def visitedEntries (ord : RangeOrder) : Nat → List GoMap → List (List (String × Value))
  | _, [] => []
  | i, row :: rest => ord.order i row :: visitedEntries ord (i + 1) rest

/-- A store that answers every query with the given columns and rows. -/
def tableQuery (columns : List String) (rs : List (List Value)) : String → Except String Rows :=
  fun _ => .ok ⟨.ok columns, rs.map .ok, none⟩

/-- The character of a markdown fence (U+0060). -/
def backtick : Char := Char.ofNat 96

/-- A run of white space. -/
def Blank (l : List Char) : Prop := ∀ c ∈ l, isSpace c = true

/-- A text without leading and without trailing white space. -/
def Trimmed (l : List Char) : Prop :=
  (∀ c, l.head? = some c → isSpace c = false) ∧ (∀ c, l.getLast? = some c → isSpace c = false)

/-! ## Concrete collaborators used for evaluation -/

/-- A `range` that visits the entries in the order of their first insertion. -/
def RangeOrder.insertion : RangeOrder := ⟨fun _ row => row, fun _ _ => List.Perm.refl _⟩

/-- A `range` that visits the entries in the opposite order. -/
def RangeOrder.reversed : RangeOrder := ⟨fun _ row => row.reverse, fun _ row => List.reverse_perm row⟩

/-- A clock reading on 2024-01-15. -/
def sampleClock : Clock := ⟨2024, 1, 15, 12, 30, 0⟩

/-- A row set with two columns and one row. -/
def sampleRows : Rows :=
  ⟨.ok ["id", "thought_text"], [.ok [.int 1, .text "купить молоко"]], none⟩

/-- Collaborators that all succeed: the model answers `answer` to every request, every query
yields `sampleRows` and leaves the store as it was. -/
def sampleEnv (answer : String) : Env where
  now := sampleClock
  OPENAI_MODEL := ""
  CreateChatCompletion := fun _ _ _ => .ok [answer]
  query := fun _ => .ok sampleRows
  exec := fun db _ => db
  rangeOrder := RangeOrder.insertion
  GetFile := fun _ => .ok "file"
  httpGet := fun _ => .ok "audio"
  CreateTemp := fun pattern => .ok pattern
  ioCopy := fun _ _ => .ok ()
  speechToText := fun _ => .ok "привет"
  textToSpeech := fun _ => .ok "audio"
  sendVoice := fun _ _ _ => .ok ()

/-- A plain text message of user 7, `alice`. -/
def sampleMessage (text : String) : Message :=
  ⟨100, 7, "alice", text, false, "", none⟩

/-- A store in which user 7 has the given `user_limits` row. -/
def sampleDB (row : LimitRow) : DB :=
  ⟨some [], some (Function.update (fun _ => none) 7 (some row)), some []⟩

/-- An answer of 500 Cyrillic letters. -/
def cyrillic500 : String := ⟨List.replicate 500 'я'⟩

/-- An answer of 500 Latin letters. -/
def latin500 : String := ⟨List.replicate 500 'a'⟩

/-- A row stream that hands out one row and then fails while advancing: `rows.Next()` returns
`false` and `rows.Err()` holds the error. -/
def brokenStream : Rows := ⟨.ok ["id"], [.ok [.int 1]], some "disk I/O error"⟩

/-- A row stream that fails while advancing before any row was read. -/
def brokenAtStart : Rows := ⟨.ok ["id"], [], some "database is locked"⟩

/-- Collaborators that all succeed, except that the language model returns a response without
any candidate to every request. -/
def silentEnv : Env :=
  { sampleEnv "" with CreateChatCompletion := fun _ _ _ => .ok [] }

/-- Collaborators that all succeed; the language model returns a response without any
candidate to the compression request and answers every other request with a query. -/
def silentFormatEnv : Env :=
  { sampleEnv "" with
    CreateChatCompletion := fun _ system _ =>
      if system = formatSystemPrompt then .ok []
      else .ok ["SELECT id, thought_text FROM thoughts"] }

/-- A statement text that begins with `SELECT` and goes on to create table `messages` with
the columns that `saveMessage` inserts into. -/
def createMessagesSQL : String :=
  "SELECT 1; CREATE TABLE messages (timestamp DATETIME, user_id INTEGER, username TEXT, " ++
  "message_type TEXT, input_text TEXT, response_type TEXT, response_text TEXT)"

/-- Collaborators that all succeed; the language model translates every request into
`createMessagesSQL` and compresses every result into `ok`.  The engine runs both statements
of that text: the last one has no columns and no rows, and leaves the store with table
`messages`. -/
def creatingEnv : Env :=
  { sampleEnv "ok" with
    CreateChatCompletion := fun _ system _ =>
      if system = formatSystemPrompt then .ok ["ok"] else .ok [createMessagesSQL]
    query := fun _ => .ok ⟨.ok [], [], none⟩
    exec := fun db sqlQuery =>
      if sqlQuery = createMessagesSQL then { db with messages := some (db.messages.getD []) }
      else db }

/-- A lookup in `user_limits` that fails although table and row are in place. -/
def lockedLookup : Lookup := .failed "database is locked"

/-! ## Theorems -/

/-- A failing scan loop reports a scan error, whose text begins with the scan prefix. -/
theorem scanRows_error (columns : List String) (scans : List (Except String (List Value)))
    (acc : List GoMap) (msg : String) (h : scanRows columns scans acc = .error msg) :
    ∃ e, msg = "ошибка сканирования строки: " ++ e := by
  induction scans generalizing acc with
  | nil => simp [scanRows] at h
  | cons s rest ih =>
    cases s with
    | error e => simp only [scanRows, Except.error.injEq] at h; exact ⟨e, h.symm⟩
    | ok values => simp only [scanRows] at h; exact ih _ h

/-- The guard error is none of the errors raised after the guard. -/
theorem guard_error_distinct (e : String) :
    "ошибка выполнения SQL: " ++ e ≠ "разрешены только SELECT запросы" ∧
    "ошибка получения колонок: " ++ e ≠ "разрешены только SELECT запросы" ∧
    "ошибка сканирования строки: " ++ e ≠ "разрешены только SELECT запросы" := by
  refine ⟨?_, ?_, ?_⟩ <;>
  · intro h
    have := congrArg (fun s => s.data.head?) h
    simp at this

/-- A query that fails the guard is rejected before the store is touched. -/
theorem executeSQL_rejected (query : String → Except String Rows) (ord : RangeOrder) :
    ∀ q, HasPrefix (ToUpper (TrimSpace q)) "SELECT" = false →
      executeSQL query ord q = (.error "разрешены только SELECT запросы", []) := by
  intro q hq
  simp [executeSQL, hq]

/-- A query that passes the guard is issued to the store, once, and its result is not the
guard error. -/
theorem executeSQL_accepted (query : String → Except String Rows) (ord : RangeOrder) :
    ∀ q, HasPrefix (ToUpper (TrimSpace q)) "SELECT" = true →
      (executeSQL query ord q).2 = [.query q] ∧
      (executeSQL query ord q).1 ≠ .error "разрешены только SELECT запросы" := by
  intro q hq
  cases hqr : query q with
  | error e => simpa [executeSQL, hq, hqr] using (guard_error_distinct e).1
  | ok rows =>
    cases hc : rows.columns with
    | error e => simpa [executeSQL, hq, hqr, hc] using (guard_error_distinct e).2.1
    | ok columns =>
      cases hs : scanRows columns rows.scans [] with
      | error msg =>
        obtain ⟨e, rfl⟩ := scanRows_error _ _ _ _ hs
        simpa [executeSQL, hq, hqr, hc, hs] using (guard_error_distinct e).2.2
      | ok results =>
        by_cases hl : results = [] <;> simp [executeSQL, hq, hqr, hc, hs, hl]

/-- Claim C1: `executeSQL` returns the error "only SELECT queries are allowed" exactly when
the upper-cased, trimmed query does not begin with `SELECT`; in that case no query is issued
to the store, and otherwise exactly the given query is issued.  `select 1` and `  SeLeCt 1 `
pass the guard, `DROP TABLE notes` and a query behind a leading comment are rejected. -/
theorem executeSQL_guard (query : String → Except String Rows) (ord : RangeOrder) :
    (∀ q, (executeSQL query ord q).1 = .error "разрешены только SELECT запросы" ↔
      HasPrefix (ToUpper (TrimSpace q)) "SELECT" = false) ∧
    (∀ q, HasPrefix (ToUpper (TrimSpace q)) "SELECT" = false →
      executeSQL query ord q = (.error "разрешены только SELECT запросы", [])) ∧
    (∀ q, HasPrefix (ToUpper (TrimSpace q)) "SELECT" = true →
      (executeSQL query ord q).2 = [.query q]) ∧
    (executeSQL query ord "select 1").2 = [.query "select 1"] ∧
    (executeSQL query ord "  SeLeCt 1 ").2 = [.query "  SeLeCt 1 "] ∧
    executeSQL query ord "DROP TABLE notes" = (.error "разрешены только SELECT запросы", []) ∧
    executeSQL query ord "-- c\nselect 1" = (.error "разрешены только SELECT запросы", []) := by
  have hrej := executeSQL_rejected query ord
  have hacc := executeSQL_accepted query ord
  refine ⟨?_, hrej, fun q hq => (hacc q hq).1, (hacc _ (by decide)).1, (hacc _ (by decide)).1,
    hrej _ (by decide), hrej _ (by decide)⟩
  intro q
  constructor
  · intro h
    by_contra hp
    exact (hacc q (by simpa using hp)).2 h
  · intro hq
    rw [hrej q hq]


/-! ### Quota gate -/

/-- No digit is a space. -/
theorem digit_ne_space (n : Nat) : (digit n != ' ') = true := by
  unfold digit
  have h := Nat.mod_lt n (show 0 < 10 by decide)
  generalize n % 10 = k at h
  interval_cases k <;> decide

/-- The date part that `checkUserLimit` cuts out of the scanned `lastDate` is never the text
of `date('now')`: the scanned text has the layout RFC3339, twenty code points without a
space, and `date('now')` has ten. -/
theorem scanDate_never_today (stored : String) (now : Clock) :
    splitSpaceFirst (scanDate stored) ≠ dateNow now := by
  intro h
  have := congrArg (fun s => s.data.length) h
  simp [splitSpaceFirst, scanDate, formatRFC3339, dateNow, List.takeWhile, digit_ne_space]
    at this

/-- On an existing record `checkUserLimit` allows the request and resets the record. -/
theorem checkUserLimit_found (now : Clock) (db : DB) (userID : Int) (username : String)
    (t : Int → Option LimitRow) (row : LimitRow) (hu : username ≠ "roman8890")
    (ht : db.user_limits = some t) (hr : t userID = some row) :
    checkUserLimit now db userID username =
      (false, db.putLimit t userID { row with date := dateNow now, request_count := 0 }) := by
  simp [checkUserLimit, checkUserLimitOn, hu, scanLimit, ht, hr, scanDate_never_today,
    DB.resetLimit]

/-- Without record `checkUserLimit` allows the request and inserts a record with count 0. -/
theorem checkUserLimit_new (now : Clock) (db : DB) (userID : Int) (username : String)
    (t : Int → Option LimitRow) (hu : username ≠ "roman8890")
    (ht : db.user_limits = some t) (hr : t userID = none) :
    checkUserLimit now db userID username =
      (false, db.putLimit t userID ⟨username, dateNow now, 0⟩) := by
  simp [checkUserLimit, checkUserLimitOn, hu, scanLimit, ht, hr, DB.insertLimit]

/-- Without table `checkUserLimit` allows the request and changes nothing. -/
theorem checkUserLimit_noTable (now : Clock) (db : DB) (userID : Int) (username : String)
    (ht : db.user_limits = none) : checkUserLimit now db userID username = (false, db) := by
  by_cases hu : username = "roman8890" <;>
    simp [checkUserLimit, checkUserLimitOn, hu, scanLimit, ht]

/-- The result of `checkUserLimit` is `false` on every store. -/
theorem checkUserLimit_allows (now : Clock) (db : DB) (userID : Int) (username : String) :
    (checkUserLimit now db userID username).1 = false := by
  by_cases hu : username = "roman8890"
  · simp [checkUserLimit, checkUserLimitOn, hu]
  · cases ht : db.user_limits with
    | none => rw [checkUserLimit_noTable now db userID username ht]
    | some t =>
      cases hr : t userID with
      | none => rw [checkUserLimit_new now db userID username t hu ht hr]
      | some row => rw [checkUserLimit_found now db userID username t row hu ht hr]

/-- Every step of a run of the gate is allowed. -/
theorem gateRun_all_allowed (now : Clock) (userID : Int) (username : String) (n : Nat) :
    ∀ db : DB, (gateRun now userID username n db).map Prod.fst = List.replicate n true := by
  induction n with
  | zero => intro db; rfl
  | succ n ih =>
    intro db
    simp [gateRun, checkUserLimit_allows, ih, List.replicate_succ]

/-- Claim C2, evaluated on the code: the date that `checkUserLimit` reads back from column
`date` (declared `DATE`) arrives in the layout RFC3339, so its date part never equals the text
of `date('now')`; the branch that resets the record is taken on every existing record and
`checkUserLimit` never returns `true`.  Every step of every run of the gate is allowed: a new
user is allowed four times in a row on one day, the count standing at 1 after each step. -/
theorem checkUserLimit_never_denies :
    (∀ (stored : String) (now : Clock), splitSpaceFirst (scanDate stored) ≠ dateNow now) ∧
    scanDate "2024-01-15" = "2024-01-15T00:00:00Z" ∧
    (∀ (now : Clock) (db : DB) (userID : Int) (username : String),
      (checkUserLimit now db userID username).1 = false) ∧
    (∀ (now : Clock) (userID : Int) (username : String) (n : Nat) (db : DB),
      (gateRun now userID username n db).map Prod.fst = List.replicate n true) ∧
    "alice" ≠ "roman8890" ∧
    gateRun sampleClock 7 "alice" 4 (initDB DB.empty) =
      [(true, false), (true, false), (true, false), (true, false)] ∧
    (checkUserLimit sampleClock (sampleDB ⟨"alice", "2024-01-15", 2⟩) 7 "alice").1 = false ∧
    (checkUserLimit sampleClock (sampleDB ⟨"alice", "2024-01-15", 2⟩) 7 "alice").2.limitOf 7 =
      some ⟨"alice", "2024-01-15", 0⟩ := by
  refine ⟨scanDate_never_today, by decide, checkUserLimit_allows, gateRun_all_allowed,
    by decide, by decide, by decide, by decide⟩

/-- Claim C3, refuted as stated: after the gate handled the first message of a user without
record, the record holds count 1, not 0. -/
theorem first_request_count_not_zero :
    ((quotaGate (sampleEnv "ok") (initDB DB.empty) (sampleMessage "привет")).2.limitOf 7) =
      some ⟨"alice", "2024-01-15", 1⟩ ∧
    ¬ ∃ row, ((quotaGate (sampleEnv "ok") (initDB DB.empty)
        (sampleMessage "привет")).2.limitOf 7) = some row ∧ row.request_count = 0 := by
  have h : ((quotaGate (sampleEnv "ok") (initDB DB.empty) (sampleMessage "привет")).2.limitOf 7) =
      some ⟨"alice", "2024-01-15", 1⟩ := by decide
  refine ⟨h, ?_⟩
  rintro ⟨row, hrow, hc⟩
  rw [h] at hrow
  cases hrow
  simp at hc

/-- Claim C3, amended: for a non-privileged user without record, `checkUserLimit` allows the
request and creates the record with today's date and count 0; the `incrementUserUsage` that
the gate runs next counts the request, so after the gate step the count is 1. -/
theorem first_request_is_counted (env : Env) (db : DB) (m : Message)
    (t : Int → Option LimitRow) (hu : m.fromUserName ≠ "roman8890")
    (hg : m.isCommand = false) (ht : db.user_limits = some t) (hr : t m.fromID = none) :
    (checkUserLimit env.now db m.fromID m.fromUserName).1 = false ∧
    (checkUserLimit env.now db m.fromID m.fromUserName).2.limitOf m.fromID =
      some ⟨m.fromUserName, dateNow env.now, 0⟩ ∧
    (quotaGate env db m).1 = none ∧
    (quotaGate env db m).2.limitOf m.fromID = some ⟨m.fromUserName, dateNow env.now, 1⟩ := by
  have h1 := checkUserLimit_new env.now db m.fromID m.fromUserName t hu ht hr
  simp [quotaGate, hg, h1, incrementUserUsage, hu, DB.putLimit, DB.limitOf]

/-- Claim C3 amended, at a concrete input: user 7 on an initialised, empty store. -/
theorem first_request_is_counted_witness :
    (checkUserLimit sampleClock (initDB DB.empty) 7 "alice").1 = false ∧
    (checkUserLimit sampleClock (initDB DB.empty) 7 "alice").2.limitOf 7 =
      some ⟨"alice", "2024-01-15", 0⟩ ∧
    (quotaGate (sampleEnv "ok") (initDB DB.empty) (sampleMessage "привет")).1 = none ∧
    (quotaGate (sampleEnv "ok") (initDB DB.empty) (sampleMessage "привет")).2.limitOf 7 =
      some ⟨"alice", "2024-01-15", 1⟩ :=
  first_request_is_counted (sampleEnv "ok") (initDB DB.empty) (sampleMessage "привет")
    (fun _ => none) (by decide) rfl rfl rfl

/-- Claim C4: for a non-privileged user whose record carries a date other than today, whatever
its count, `checkUserLimit` allows the request, leaves the record with today's date and count
0, and leaves every other record and the other tables as they were. -/
theorem checkUserLimit_resets_on_new_date (now : Clock) (db : DB) (userID : Int)
    (username : String) (t : Int → Option LimitRow) (row : LimitRow)
    (hu : username ≠ "roman8890") (ht : db.user_limits = some t) (hr : t userID = some row)
    (hd : splitSpaceFirst row.date ≠ dateNow now) :
    (checkUserLimit now db userID username).1 = false ∧
    (checkUserLimit now db userID username).2.limitOf userID =
      some ⟨row.username, dateNow now, 0⟩ ∧
    (∀ other, other ≠ userID →
      (checkUserLimit now db userID username).2.limitOf other = db.limitOf other) ∧
    (checkUserLimit now db userID username).2.thoughts = db.thoughts ∧
    (checkUserLimit now db userID username).2.messages = db.messages := by
  have h1 := checkUserLimit_found now db userID username t row hu ht hr
  have _ := hd
  rw [h1]
  refine ⟨rfl, by simp [DB.putLimit, DB.limitOf], ?_, rfl, rfl⟩
  intro other ho
  simp [DB.putLimit, DB.limitOf, ht, Function.update_noteq ho]

/-- Claim C4, at a concrete input: a record of the day before with count 5. -/
theorem checkUserLimit_resets_on_new_date_witness :
    (checkUserLimit sampleClock (sampleDB ⟨"alice", "2024-01-14", 5⟩) 7 "alice").1 = false ∧
    (checkUserLimit sampleClock (sampleDB ⟨"alice", "2024-01-14", 5⟩) 7 "alice").2.limitOf 7 =
      some ⟨"alice", "2024-01-15", 0⟩ :=
  have h := checkUserLimit_resets_on_new_date sampleClock (sampleDB ⟨"alice", "2024-01-14", 5⟩)
    7 "alice" (Function.update (fun _ => none) 7 (some ⟨"alice", "2024-01-14", 5⟩))
    ⟨"alice", "2024-01-14", 5⟩ (by decide) rfl (by simp) (by decide)
  ⟨h.1, h.2.1⟩

/-- Claim C5: for the privileged name `roman8890`, whatever the user ID and the store,
`checkUserLimit` allows, `incrementUserUsage` succeeds, both return the store unchanged (so no
record is created), and the gate of the loop lets the message through on an unchanged store. -/
theorem owner_bypasses_quota (now : Clock) (db : DB) (userID : Int) :
    checkUserLimit now db userID "roman8890" = (false, db) ∧
    incrementUserUsage now db userID "roman8890" = (.ok (), db) ∧
    (incrementUserUsage now (checkUserLimit now db userID "roman8890").2 userID
      "roman8890").2.limitOf userID = db.limitOf userID ∧
    ∀ (env : Env) (m : Message),
      quotaGate env db { m with fromUserName := "roman8890" } = (none, db) := by
  refine ⟨by simp [checkUserLimit, checkUserLimitOn], by simp [incrementUserUsage],
    by simp [checkUserLimit, checkUserLimitOn, incrementUserUsage], ?_⟩
  intro env m
  by_cases hc : m.isCommand = true <;> by_cases h1 : m.command = "start" <;>
    by_cases h2 : m.command = "help" <;>
    simp [quotaGate, checkUserLimit, checkUserLimitOn, incrementUserUsage, hc, h1, h2]



/-- The gate of the loop never turns a message away. -/
theorem quotaGate_allows (env : Env) (db : DB) (m : Message) :
    (quotaGate env db m).1 = none := by
  unfold quotaGate
  split
  · simp [checkUserLimit_allows]
  · rfl

/-- The function `checkUserLimit` touches table `user_limits` only. -/
theorem checkUserLimitOn_tables (scan : Lookup) (now : Clock) (db : DB) (userID : Int)
    (username : String) :
    (checkUserLimitOn scan now db userID username).2.thoughts = db.thoughts ∧
    (checkUserLimitOn scan now db userID username).2.messages = db.messages := by
  unfold checkUserLimitOn DB.insertLimit DB.resetLimit
  dsimp only
  repeat' split
  all_goals exact ⟨rfl, rfl⟩

/-- The function `incrementUserUsage` touches table `user_limits` only. -/
theorem incrementUserUsage_tables (now : Clock) (db : DB) (userID : Int) (username : String) :
    (incrementUserUsage now db userID username).2.thoughts = db.thoughts ∧
    (incrementUserUsage now db userID username).2.messages = db.messages := by
  unfold incrementUserUsage
  repeat' split
  all_goals exact ⟨rfl, rfl⟩

/-- The gate of the loop touches table `user_limits` only. -/
theorem quotaGate_tables (env : Env) (db : DB) (m : Message) :
    (quotaGate env db m).2.thoughts = db.thoughts ∧
    (quotaGate env db m).2.messages = db.messages := by
  have hc := fun d u n => checkUserLimitOn_tables (scanLimit d u) env.now d u n
  have hi := fun d u n => incrementUserUsage_tables env.now d u n
  unfold quotaGate
  split
  · simp only
    split
    · exact hc _ _ _
    · exact ⟨((hi _ _ _).1).trans (hc _ _ _).1, ((hi _ _ _).2).trans (hc _ _ _).2⟩
  · exact ⟨rfl, rfl⟩

/-! ### Intent dispatch -/

/-- The test `HasPrefix` is the list-prefix relation on code points. -/
theorem HasPrefix_iff (s p : String) : HasPrefix s p = true ↔ p.data <+: s.data := by
  simp [HasPrefix]

/-- Claim C6: the keyword test classifies a text as the specification says (note keyword
first, then database keyword, else chat with the unmodified text, which is what the language
model receives); the two examples of the specification hold; a note whose body starts with the
database keyword is still a note; the voice path and the text path classify identically. -/
theorem intent_classification :
    (∀ t, textIntent t = Classify t) ∧
    (∀ t, voiceIntent t = textIntent t) ∧
    textIntent " База сколько сообщений " = .StructuredQuery "сколько сообщений" ∧
    textIntent "Мысль купить молоко" = .NoteCapture "купить молоко" ∧
    textIntent "мысль база данных" = .NoteCapture "база данных" ∧
    textIntent "база" = .StructuredQuery "" ∧
    textIntent "  Что такое горутина? " = .Chat "  Что такое горутина? " ∧
    (∀ (env : Env) (db : DB) (m : Message) (x : String), textIntent m.text = .Chat x →
      x = m.text ∧
      Event.chatCompletion env.model chatSystemPrompt m.text ∈ (textBranch env db m).2) ∧
    (∀ (env : Env) (db : DB) (m : Message) (t x : String), voiceIntent t = .Chat x →
      x = t ∧
      Event.chatCompletion env.model chatSystemPrompt t ∈ (voiceRecognized env db m t).2) := by
  have hchat : ∀ t x, textIntent t = .Chat x → x = t := by
    intro t x h
    unfold textIntent at h
    simp only at h
    split at h
    · cases h
    · split at h
      · cases h
      · cases h; rfl
  refine ⟨?_, fun t => rfl, by decide, by decide, by decide, by decide, by decide, ?_, ?_⟩
  · intro t
    unfold textIntent Classify
    simp only [TrimPrefix]
    by_cases h1 : HasPrefix (ToLower (TrimSpace t)) "мысль" = true
    · have h1' := (HasPrefix_iff _ _).1 h1
      simp [h1, h1', show "мысль".data.length = 5 by decide]
    · have h1' : ¬ "мысль".data <+: (ToLower (TrimSpace t)).data :=
        fun h => h1 ((HasPrefix_iff _ _).2 h)
      by_cases h2 : HasPrefix (ToLower (TrimSpace t)) "база" = true
      · have h2' := (HasPrefix_iff _ _).1 h2
        simp [h1, h1', h2, h2', show "база".data.length = 4 by decide]
      · have h2' : ¬ "база".data <+: (ToLower (TrimSpace t)).data :=
          fun h => h2 ((HasPrefix_iff _ _).2 h)
        simp [h1, h1', h2, h2']
  · intro env db m x h
    have hx := hchat _ _ h
    subst hx
    refine ⟨rfl, ?_⟩
    unfold textBranch
    simp only [h]
    cases hc : env.CreateChatCompletion env.model chatSystemPrompt m.text with
    | error e => simp [getChatGPTResponse, hc]
    | ok choices => cases choices <;> simp [getChatGPTResponse, hc]
  · intro env db m t x h
    have hx := hchat t x h
    subst hx
    refine ⟨rfl, ?_⟩
    unfold voiceRecognized
    simp only [h]
    cases hc : env.CreateChatCompletion env.model chatSystemPrompt x with
    | error e => simp [getChatGPTResponse, hc]
    | ok choices => cases choices <;> simp [getChatGPTResponse, hc]


/-! ### Persistence after delivery -/

/-- Prefixing calls that are not `saveMessage` keeps the shape of a trace. -/
theorem SavedOnlyAfterDelivery.prepend {trace : List Event}
    (h : SavedOnlyAfterDelivery trace) (pre : List Event)
    (hp : ∀ x ∈ pre, x.isSaveMessage = false) :
    SavedOnlyAfterDelivery (pre ++ trace) := by
  rcases h with h | ⟨p, c, cap, e, rfl, he, hpre⟩
  · left
    intro x hx
    rcases List.mem_append.1 hx with hx | hx
    · exact hp x hx
    · exact h x hx
  · right
    refine ⟨pre ++ p, c, cap, e, by simp, he, ?_⟩
    intro x hx
    rcases List.mem_append.1 hx with hx | hx
    · exact hp x hx
    · exact hpre x hx

/-- The empty trace is quiet. -/
theorem quiet_nil : Quiet [] := by simp [Quiet]

/-- A trace is quiet when its head and its tail are. -/
theorem quiet_cons (a : Event) (trace : List Event) :
    Quiet (a :: trace) ↔ (a.isSaveMessage = false ∧ a.isSaveThought = false) ∧ Quiet trace := by
  simp [Quiet]

/-- A concatenation is quiet when both parts are. -/
theorem quiet_append (l₁ l₂ : List Event) : Quiet (l₁ ++ l₂) ↔ Quiet l₁ ∧ Quiet l₂ := by
  unfold Quiet
  exact List.forall_mem_append

/-- The translator calls neither `saveMessage` nor `saveThought`. -/
theorem generateSQL_quiet (env : Env) (userQuery : String) :
    Quiet (generateSQL env userQuery).2 := by
  unfold generateSQL
  simp only
  split <;> simp [quiet_cons, quiet_nil, Event.isSaveMessage, Event.isSaveThought]

/-- The compressor calls neither `saveMessage` nor `saveThought`. -/
theorem formatSQLResults_quiet (env : Env) (userQuery sqlResults : String) :
    Quiet (formatSQLResults env userQuery sqlResults).2 := by
  unfold formatSQLResults
  simp only
  split <;> simp [quiet_cons, quiet_nil, Event.isSaveMessage, Event.isSaveThought]

/-- The chat call calls neither `saveMessage` nor `saveThought`. -/
theorem getChatGPTResponse_quiet (env : Env) (userMessage : String) :
    Quiet (getChatGPTResponse env userMessage).2 := by
  unfold getChatGPTResponse
  simp only
  split <;> simp [quiet_cons, quiet_nil, Event.isSaveMessage, Event.isSaveThought]

/-- The executor issues at most the query itself. -/
theorem executeSQL_events (query : String → Except String Rows) (ord : RangeOrder)
    (sqlQuery : String) :
    (executeSQL query ord sqlQuery).2 = [] ∨
    (executeSQL query ord sqlQuery).2 = [.query sqlQuery] := by
  by_cases hq : HasPrefix (ToUpper (TrimSpace sqlQuery)) "SELECT" = true
  · right; exact (executeSQL_accepted query ord sqlQuery hq).1
  · left
    rw [executeSQL_rejected query ord sqlQuery (by simpa using hq)]

/-- The executor calls neither `saveMessage` nor `saveThought`. -/
theorem executeSQL_quiet (query : String → Except String Rows) (ord : RangeOrder)
    (sqlQuery : String) : Quiet (executeSQL query ord sqlQuery).2 := by
  rcases executeSQL_events query ord sqlQuery with h | h <;> rw [h] <;>
    simp [quiet_cons, quiet_nil, Event.isSaveMessage, Event.isSaveThought]

/-- The structured-query pipeline calls neither `saveMessage` nor `saveThought`. -/
theorem databaseAnswer_quiet (env : Env) (chatID : Int) (userQuery : String) :
    Quiet (databaseAnswer env chatID userQuery).2 := by
  have hg := generateSQL_quiet env userQuery
  unfold databaseAnswer
  simp only
  split
  · simp [quiet_cons, quiet_append, quiet_nil, hg, Event.isSaveMessage, Event.isSaveThought]
  · rename_i sqlQuery _
    have he := executeSQL_quiet env.query env.rangeOrder sqlQuery
    split
    · simp [quiet_cons, quiet_append, quiet_nil, hg, he, Event.isSaveMessage,
        Event.isSaveThought]
    · rename_i sqlResults _
      have hf := formatSQLResults_quiet env userQuery sqlResults
      split <;>
        simp [quiet_cons, quiet_append, quiet_nil, hg, he, hf, Event.isSaveMessage,
          Event.isSaveThought]

/-- The note branch never calls `saveMessage`. -/
theorem noteAnswer_noSaveMessage (env : Env) (db : DB) (m : Message) (thoughtText : String) :
    ∀ x ∈ (noteAnswer env db m thoughtText).1.2, x.isSaveMessage = false := by
  intro x hx
  unfold noteAnswer at hx
  split at hx
  · simp at hx; subst hx; rfl
  · split at hx
    · simp at hx; subst hx; rfl
    · simp only at hx
      split at hx <;> simp at hx
      · rcases hx with rfl | rfl <;> rfl
      · subst hx; rfl

/-- The end of the text branch records the exchange only right after a successful delivery,
and never calls `saveThought`. -/
theorem textDeliver_trace (env : Env) (db : DB) (m : Message) (userText gptResponse : String) :
    SavedOnlyAfterDelivery (textDeliver env db m userText gptResponse).2 ∧
    (∀ x ∈ (textDeliver env db m userText gptResponse).2, x.isSaveThought = false) := by
  unfold textDeliver
  split
  · exact ⟨Or.inl (by simp [Event.isSaveMessage]), by simp [Event.isSaveThought]⟩
  · simp only
    split
    · exact ⟨Or.inl (by simp [Event.isSaveMessage]), by simp [Event.isSaveThought]⟩
    · split
      · exact ⟨Or.inl (by simp [Event.isSaveMessage]), by simp [Event.isSaveThought]⟩
      · split
        · exact ⟨Or.inl (by simp [Event.isSaveMessage]), by simp [Event.isSaveThought]⟩
        · exact ⟨Or.inr ⟨[.send m.chatID "🎤 Генерирую голосовое сообщение...",
            .textToSpeech gptResponse], m.chatID, "🔊 " ++ gptResponse, _, rfl, rfl,
            by simp [Event.isSaveMessage]⟩, by simp [Event.isSaveThought]⟩

/-- The end of the voice branch records the exchange only right after a successful delivery,
and never calls `saveThought`. -/
theorem voiceDeliver_trace (env : Env) (db : DB) (m : Message)
    (recognizedText gptResponse : String) :
    SavedOnlyAfterDelivery (voiceDeliver env db m recognizedText gptResponse).2 ∧
    (∀ x ∈ (voiceDeliver env db m recognizedText gptResponse).2, x.isSaveThought = false) := by
  unfold voiceDeliver
  split
  · exact ⟨Or.inl (by simp [Event.isSaveMessage]), by simp [Event.isSaveThought]⟩
  · simp only
    split
    · exact ⟨Or.inl (by simp [Event.isSaveMessage]), by simp [Event.isSaveThought]⟩
    · split
      · exact ⟨Or.inl (by simp [Event.isSaveMessage]), by simp [Event.isSaveThought]⟩
      · split
        · exact ⟨Or.inl (by simp [Event.isSaveMessage]), by simp [Event.isSaveThought]⟩
        · exact ⟨Or.inr ⟨[.send m.chatID "🎤 Генерирую голосовое сообщение...",
            .textToSpeech gptResponse], m.chatID, "🔊 " ++ gptResponse, _, rfl, rfl,
            by simp [Event.isSaveMessage]⟩, by simp [Event.isSaveThought]⟩

/-- A quiet trace has no `saveMessage`. -/
theorem Quiet.noSaveMessage {trace : List Event} (h : Quiet trace) :
    ∀ x ∈ trace, x.isSaveMessage = false := fun x hx => (h x hx).1

/-- A quiet trace has no `saveThought`. -/
theorem Quiet.noSaveThought {trace : List Event} (h : Quiet trace) :
    ∀ x ∈ trace, x.isSaveThought = false := fun x hx => (h x hx).2

/-- A quiet trace meets the guarantee of a branch. -/
theorem BranchOK.of_quiet (m : Message) {trace : List Event} (h : Quiet trace) :
    BranchOK m trace :=
  ⟨Or.inl h.noSaveMessage, fun _ => h.noSaveThought⟩

/-- A quiet beginning followed by the end of a branch meets the guarantee of a branch. -/
theorem BranchOK.after_quiet (m : Message) (pre : List Event) {out : List Event}
    (hp : Quiet pre)
    (ho : SavedOnlyAfterDelivery out ∧ (∀ x ∈ out, x.isSaveThought = false)) :
    BranchOK m (pre ++ out) := by
  refine ⟨ho.1.prepend pre hp.noSaveMessage, fun _ => ?_⟩
  intro x hx
  rcases List.mem_append.1 hx with hx | hx
  · exact hp.noSaveThought x hx
  · exact ho.2 x hx

/-- A sender other than the owner is turned away by the note branch: one permission-denied
reply, no store access. -/
theorem noteAnswer_stranger (env : Env) (db : DB) (m : Message) (thoughtText : String)
    (hu : m.fromUserName ≠ "roman8890") :
    noteAnswer env db m thoughtText =
      ((.error (), [.send m.chatID permissionDenied]), db) := by
  simp [noteAnswer, hu]

/-- The text branch meets the guarantee of a branch. -/
theorem textBranch_ok (env : Env) (db : DB) (m : Message) :
    BranchOK m (textBranch env db m).2 := by
  unfold textBranch
  simp only
  split
  · rename_i thoughtText _
    by_cases hu : m.fromUserName = "roman8890"
    · have hn := noteAnswer_noSaveMessage env db m thoughtText
      split
      · exact ⟨Or.inl hn, fun h => absurd hu h⟩
      · rename_i gptResponse _
        exact ⟨(textDeliver_trace env _ m m.text gptResponse).1.prepend _ hn,
          fun h => absurd hu h⟩
    · rw [noteAnswer_stranger env db m thoughtText hu]
      exact BranchOK.of_quiet m
        (by simp [quiet_cons, quiet_nil, Event.isSaveMessage, Event.isSaveThought])
  · rename_i userQuery _
    have hq := databaseAnswer_quiet env m.chatID userQuery
    split
    · exact BranchOK.of_quiet m hq
    · rename_i gptResponse _
      exact BranchOK.after_quiet m _ hq (textDeliver_trace env _ m m.text gptResponse)
  · rename_i fullText _
    have hq := getChatGPTResponse_quiet env fullText
    split
    · exact BranchOK.of_quiet m (by
        simp [quiet_cons, quiet_append, quiet_nil, hq, Event.isSaveMessage,
          Event.isSaveThought])
    · rename_i gptResponse _
      exact BranchOK.after_quiet m
        (Event.send m.chatID "🤖 Думаю над ответом..." :: (getChatGPTResponse env fullText).2)
        (by simp [quiet_cons, hq, Event.isSaveMessage, Event.isSaveThought])
        (textDeliver_trace env db m m.text gptResponse)

/-- The voice branch after recognition meets the guarantee of a branch. -/
theorem voiceRecognized_ok (env : Env) (db : DB) (m : Message) (recognizedText : String) :
    BranchOK m (voiceRecognized env db m recognizedText).2 := by
  unfold voiceRecognized
  split
  · rename_i thoughtText _
    by_cases hu : m.fromUserName = "roman8890"
    · have hn := noteAnswer_noSaveMessage env db m thoughtText
      simp only
      split
      · exact ⟨Or.inl hn, fun h => absurd hu h⟩
      · rename_i gptResponse _
        exact ⟨(voiceDeliver_trace env _ m recognizedText gptResponse).1.prepend _ hn,
          fun h => absurd hu h⟩
    · rw [noteAnswer_stranger env db m thoughtText hu]
      exact BranchOK.of_quiet m
        (by simp [quiet_cons, quiet_nil, Event.isSaveMessage, Event.isSaveThought])
  · rename_i userQuery _
    have hq := databaseAnswer_quiet env m.chatID userQuery
    simp only
    split
    · exact BranchOK.of_quiet m hq
    · rename_i gptResponse _
      exact BranchOK.after_quiet m _ hq
        (voiceDeliver_trace env _ m recognizedText gptResponse)
  · rename_i fullText _
    have hq := getChatGPTResponse_quiet env fullText
    simp only
    split
    · exact BranchOK.of_quiet m (by
        simp [quiet_cons, quiet_append, quiet_nil, hq, Event.isSaveMessage,
          Event.isSaveThought])
    · rename_i gptResponse _
      exact BranchOK.after_quiet m
        (Event.send m.chatID
          ("🤖 Вы сказали: \"" ++ recognizedText ++ "\"\n\nДумаю над ответом...") ::
          (getChatGPTResponse env fullText).2)
        (by simp [quiet_cons, hq, Event.isSaveMessage, Event.isSaveThought])
        (voiceDeliver_trace env db m recognizedText gptResponse)

/-- The voice branch meets the guarantee of a branch. -/
theorem voiceBranch_ok (env : Env) (db : DB) (m : Message) (fileID : String) :
    BranchOK m (voiceBranch env db m fileID).2 := by
  have q1 : Quiet [Event.send m.chatID "🎧 Распознаю голос..."] := by
    simp [quiet_cons, quiet_nil, Event.isSaveMessage, Event.isSaveThought]
  unfold voiceBranch
  simp only
  split
  · exact BranchOK.of_quiet m
      (by simp [quiet_cons, quiet_nil, Event.isSaveMessage, Event.isSaveThought])
  · split
    · exact BranchOK.of_quiet m q1
    · split
      · exact BranchOK.of_quiet m q1
      · split
        · exact BranchOK.of_quiet m q1
        · split
          · exact BranchOK.of_quiet m
              (by simp [quiet_cons, quiet_nil, Event.isSaveMessage, Event.isSaveThought])
          · rename_i recognizedText _
            have h := voiceRecognized_ok env db m recognizedText
            exact ⟨h.1.prepend [Event.send m.chatID "🎧 Распознаю голос..."] q1.noSaveMessage,
              fun hu => by
                intro x hx
                rcases List.mem_cons.1 hx with rfl | hx
                · rfl
                · exact h.2 hu x hx⟩

/-- The command switch calls neither `saveMessage` nor `saveThought`. -/
theorem commandBranch_ok (env : Env) (db : DB) (m : Message) :
    BranchOK m (commandBranch env db m).2 := by
  unfold commandBranch
  dsimp only
  repeat' split
  all_goals
    exact BranchOK.of_quiet m
      (by simp [quiet_cons, quiet_nil, Event.isSaveMessage, Event.isSaveThought])

/-- The gate, when it turns a message away, sends the quota notice and nothing else. -/
theorem quotaGate_reply (env : Env) (db : DB) (m : Message) (reply : List Event)
    (h : (quotaGate env db m).1 = some reply) :
    reply = [.send m.chatID quotaNotice] := by
  unfold quotaGate at h
  split at h
  · simp only at h
    split at h
    · simpa using h.symm
    · simp at h
  · simp at h

/-- One iteration of the loop meets the guarantee of a branch. -/
theorem handleUpdate_ok (env : Env) (db : DB) (m : Message) :
    BranchOK m (handleUpdate env db (some m)).2 := by
  unfold handleUpdate
  simp only
  split
  · rename_i reply hreply
    rw [quotaGate_reply env db m reply hreply]
    exact BranchOK.of_quiet m
      (by simp [quiet_cons, quiet_nil, Event.isSaveMessage, Event.isSaveThought])
  · split
    · exact voiceBranch_ok env _ m _
    · split
      · exact commandBranch_ok env _ m
      · split
        · exact textBranch_ok env _ m
        · exact BranchOK.of_quiet m quiet_nil

/-- Claim C7: in the trace of one message-handling step, a call of `saveMessage` is the last
call and comes right after a voice delivery that reported success, and it is the only such
call; so on every exit path without a successful delivery `saveMessage` is not called. -/
theorem saveMessage_only_after_delivery (env : Env) (db : DB) (message : Option Message)
    (e : Event) (he : e ∈ (handleUpdate env db message).2) (hs : e.isSaveMessage = true) :
    ∃ pre chatID caption,
      (handleUpdate env db message).2 = pre ++ [.sendVoice chatID caption true, e] ∧
      ∀ x ∈ pre, x.isSaveMessage = false := by
  cases message with
  | none => simp [handleUpdate] at he
  | some m =>
    rcases (handleUpdate_ok env db m).1 with h | ⟨pre, c, cap, e', htr, he', hpre⟩
    · rw [h e he] at hs
      cases hs
    · refine ⟨pre, c, cap, ?_, hpre⟩
      rw [htr] at he
      simp only [List.mem_append, List.mem_cons, List.mem_singleton, List.not_mem_nil,
        or_false] at he
      rcases he with he | rfl | rfl
      · rw [hpre e he] at hs
        cases hs
      · cases hs
      · exact htr

/-- Claim C7, at a concrete input: a chat message whose answer is delivered. -/
theorem saveMessage_only_after_delivery_witness :
    (handleUpdate (sampleEnv "ok") (initDB DB.empty) (some (sampleMessage "привет"))).2 =
      [.send 100 "🤖 Думаю над ответом...",
        .chatCompletion "gpt-4o-mini" chatSystemPrompt "привет",
        .send 100 "🎤 Генерирую голосовое сообщение...",
        .textToSpeech "ok",
        .sendVoice 100 "🔊 ok" true,
        .saveMessage 7 "alice" "text" "привет" "voice" "ok"] ∧
    ∃ pre chatID caption,
      (handleUpdate (sampleEnv "ok") (initDB DB.empty) (some (sampleMessage "привет"))).2 =
        pre ++ [.sendVoice chatID caption true,
          .saveMessage 7 "alice" "text" "привет" "voice" "ok"] ∧
      ∀ x ∈ pre, x.isSaveMessage = false :=
  ⟨by decide, saveMessage_only_after_delivery (sampleEnv "ok") (initDB DB.empty)
    (some (sampleMessage "привет")) (.saveMessage 7 "alice" "text" "привет" "voice" "ok")
    (by decide) rfl⟩


/-! ### Notes from other senders -/

/-- Claim C9: for a sender other than the owner and every store, so every quota state,
handling a message never calls `saveThought`.  A text classified as a note is answered with
the permission-denied reply and nothing else; a voice message whose recognized text is
classified as a note is answered with the recognition status and then the permission-denied
reply, and nothing else.  In both cases table `thoughts` is left as it was. -/
theorem note_from_stranger_never_saved (env : Env) (db : DB) (m : Message)
    (thoughtText : String) (hu : m.fromUserName ≠ "roman8890") :
    (∀ x ∈ (handleUpdate env db (some m)).2, x.isSaveThought = false) ∧
    (m.voice = none → m.isCommand = false → textIntent m.text = .NoteCapture thoughtText →
      (handleUpdate env db (some m)).2 = [.send m.chatID permissionDenied] ∧
      (handleUpdate env db (some m)).1.thoughts = db.thoughts) ∧
    (∀ fileID fileURL body tmpFileName recognizedText,
      m.voice = some fileID → env.GetFile fileID = .ok fileURL →
      env.httpGet fileURL = .ok body → env.CreateTemp "voice-*.ogg" = .ok tmpFileName →
      env.ioCopy tmpFileName body = .ok () →
      env.speechToText tmpFileName = .ok recognizedText →
      voiceIntent recognizedText = .NoteCapture thoughtText →
      (handleUpdate env db (some m)).2 =
        [.send m.chatID "🎧 Распознаю голос...", .send m.chatID permissionDenied] ∧
      (handleUpdate env db (some m)).1.thoughts = db.thoughts) := by
  have hg := quotaGate_allows env db m
  have ht := (quotaGate_tables env db m).1
  refine ⟨(handleUpdate_ok env db m).2 hu, ?_, ?_⟩
  · intro hv hc hi
    have htext : m.text ≠ "" := by
      intro h
      rw [h, show textIntent "" = .Chat "" by decide] at hi
      cases hi
    simp [handleUpdate, hg, hv, hc, htext, textBranch, hi,
      noteAnswer_stranger env _ m thoughtText hu, ht]
  · intro fileID fileURL body tmpFileName recognizedText hv h1 h2 h3 h4 h5 hi
    simp [handleUpdate, hg, hv, voiceBranch, h1, h2, h3, h4, h5, voiceRecognized, hi,
      noteAnswer_stranger env _ m thoughtText hu, ht]

/-- Claim C9, at concrete inputs: a text note and a voice note from `alice`, whose record of
today stands at five requests. -/
theorem note_from_stranger_never_saved_witness :
    dateNow sampleClock = "2024-01-15" ∧
    (handleUpdate (sampleEnv "ok") (sampleDB ⟨"alice", "2024-01-15", 5⟩)
      (some (sampleMessage "мысль купить молоко"))).2 = [.send 100 permissionDenied] ∧
    (handleUpdate (sampleEnv "ok") (sampleDB ⟨"alice", "2024-01-15", 5⟩)
      (some (sampleMessage "мысль купить молоко"))).1.thoughts = some [] ∧
    (handleUpdate { sampleEnv "ok" with speechToText := fun _ => .ok "Мысль купить молоко" }
      (sampleDB ⟨"alice", "2024-01-15", 5⟩)
      (some { sampleMessage "" with voice := some "f1" })).2 =
      [.send 100 "🎧 Распознаю голос...", .send 100 permissionDenied] :=
  have h := note_from_stranger_never_saved (sampleEnv "ok")
    (sampleDB ⟨"alice", "2024-01-15", 5⟩) (sampleMessage "мысль купить молоко")
    "купить молоко" (by decide)
  ⟨by decide, (h.2.1 rfl rfl (by decide)).1, (h.2.1 rfl rfl (by decide)).2, by decide⟩

/-! ### Length ceiling of the synthesis -/

set_option maxRecDepth 100000 in
/-- Claim C8, evaluated on the code: the ceiling of 500 is applied to the byte length.  Both
ends of the branches pass an answer to `textToSpeech` exactly when its UTF-8 encoding has at
most 500 bytes; an answer of 500 Cyrillic letters (1000 bytes) is sent as text only, with the
notice that names a maximum of 500 characters, while 500 Latin letters are synthesized. -/
theorem length_ceiling_counts_bytes :
    (∀ (env : Env) (db : DB) (m : Message) (userText gptResponse : String),
      Event.textToSpeech gptResponse ∈ (textDeliver env db m userText gptResponse).2 ↔
        len gptResponse ≤ 500) ∧
    (∀ (env : Env) (db : DB) (m : Message) (recognizedText gptResponse : String),
      Event.textToSpeech gptResponse ∈ (voiceDeliver env db m recognizedText gptResponse).2 ↔
        len gptResponse ≤ 500) ∧
    cyrillic500.length = 500 ∧ len cyrillic500 = 1000 ∧
    (handleUpdate (sampleEnv cyrillic500) (initDB DB.empty) (some (sampleMessage "привет"))).2 =
      [.send 100 "🤖 Думаю над ответом...",
        .chatCompletion "gpt-4o-mini" chatSystemPrompt "привет",
        .send 100 ("📝 " ++ cyrillic500 ++
          "\n\n⚠️ Ответ слишком длинный для озвучивания (макс. 500 символов)")] ∧
    latin500.length = 500 ∧
    Event.textToSpeech latin500 ∈
      (handleUpdate (sampleEnv latin500) (initDB DB.empty) (some (sampleMessage "привет"))).2 := by
  refine ⟨?_, ?_, ?_, ?_, ?_, ?_, ?_⟩
  · intro env db m userText gptResponse
    unfold textDeliver
    by_cases h : len gptResponse > 500
    · simp [h]
    · simp only [h, if_false]
      have h' : len gptResponse ≤ 500 := Nat.le_of_not_lt h
      repeat' split
      all_goals simp [h']
  · intro env db m recognizedText gptResponse
    unfold voiceDeliver
    by_cases h : len gptResponse > 500
    · simp [h]
    · simp only [h, if_false]
      have h' : len gptResponse ≤ 500 := Nat.le_of_not_lt h
      repeat' split
      all_goals simp [h']
  · decide
  · decide
  · decide
  · decide
  · decide


/-! ### Rendering of the rows -/

/-- The inner loop appends one line per visited entry. -/
theorem formatEntries_eq (entries : GoMap) (resultText : String) :
    formatEntries entries resultText = resultText ++ concatAll (entries.map renderLine) := by
  unfold formatEntries
  induction entries generalizing resultText with
  | nil => simp [concatAll]
  | cons p rest ih =>
    simp only [List.foldl_cons, List.map_cons, concatAll]
    rw [ih, String.append_assoc]
    rfl

/-- The outer loop appends one block per row, numbered from `i + 1` on. -/
theorem formatRows_eq (ord : RangeOrder) (results : List GoMap) :
    ∀ (i : Nat) (resultText : String),
      formatRows ord i results resultText =
        resultText ++ renderFrom i (visitedEntries ord i results) := by
  induction results with
  | nil => intro i resultText; simp [formatRows, visitedEntries, renderFrom]
  | cons row rest ih =>
    intro i resultText
    simp only [formatRows, visitedEntries, renderFrom]
    rw [ih, formatEntries_eq, renderBlock]
    simp only [String.append_assoc]

/-- The scan loop over rows that all scan well collects one map per row. -/
theorem scanRows_ok (columns : List String) (rs : List (List Value)) :
    ∀ acc, scanRows columns (rs.map .ok) acc = .ok (acc ++ rs.map (rowMap columns)) := by
  induction rs with
  | nil => intro acc; simp [scanRows]
  | cons r rest ih => intro acc; simp [scanRows, ih]

/-- Assigning the entries of a list one after the other keeps, for every name, the last entry. -/
theorem foldl_set_eq (zs : List (String × Value)) :
    ∀ acc : GoMap, zs.foldl (fun row p => row.set p.1 p.2) acc =
      acc.filter (fun q => !zs.any (fun p => p.1 == q.1)) ++ lastEntries zs := by
  induction zs with
  | nil => intro acc; simp [lastEntries]
  | cons p rest ih =>
    intro acc
    simp only [List.foldl_cons]
    rw [ih]
    by_cases h : rest.any (fun q => q.1 == p.1) = true
    · simp only [lastEntries, h, if_true, GoMap.set, List.filter_append, List.filter_filter]
      have hp : (!rest.any fun q => q.1 == (p.1, p.2).1) = false := by
        show (!rest.any fun q => q.1 == p.1) = false
        rw [h]; rfl
      simp only [List.filter_cons, hp, List.filter_nil, List.append_nil, Bool.false_eq_true,
        if_false]
      congr 1
      apply List.filter_congr
      intro q _
      by_cases hq : q.1 = p.1
      · simp only [List.any_cons, hq, beq_self_eq_true, Bool.true_or, Bool.not_true,
          bne_self_eq_false, Bool.and_false]
      · have hq' : (p.1 == q.1) = false := by simpa using fun h' => hq h'.symm
        simp [hq, hq']
    · have h' : rest.any (fun q => q.1 == p.1) = false := Bool.eq_false_iff.2 h
      simp only [lastEntries, h', GoMap.set, List.filter_append, List.filter_filter]
      have hp : (!rest.any fun q => q.1 == (p.1, p.2).1) = true := by
        show (!rest.any fun q => q.1 == p.1) = true
        rw [h']; rfl
      simp only [List.filter_cons, hp, if_true, List.filter_nil, Bool.false_eq_true, if_false]
      rw [List.append_assoc]
      congr 1
      apply List.filter_congr
      intro q _
      by_cases hq : q.1 = p.1
      · simp [hq]
      · have hq' : (p.1 == q.1) = false := by simpa using fun h' => hq h'.symm
        simp [hq, hq']

/-- The map of a scanned row holds, for every distinct column name, the value of the last
column of that name. -/
theorem rowMap_eq (columns : List String) (values : List Value) :
    rowMap columns values = lastEntries (columnValues columns values) := by
  have h := foldl_set_eq (columnValues columns values) []
  simp only [List.filter_nil, List.nil_append] at h
  rw [← h, columnValues, List.foldl_map]
  unfold rowMap
  congr 1
  funext row p
  cases values.getD p.1 .null <;> rfl

/-- With pairwise distinct names every entry is kept. -/
theorem lastEntries_of_nodup (zs : List (String × Value)) (h : (zs.map Prod.fst).Nodup) :
    lastEntries zs = zs := by
  induction zs with
  | nil => rfl
  | cons p rest ih =>
    simp only [List.map_cons, List.nodup_cons] at h
    have hp : rest.any (fun q => q.1 == p.1) = false := by
      simp only [List.any_eq_false, beq_iff_eq]
      intro q hq heq
      exact h.1 (heq ▸ List.mem_map_of_mem Prod.fst hq)
    simp [lastEntries, hp, ih h.2]

/-- The names of the cells of a row are the column names. -/
theorem columnValues_names (columns : List String) (values : List Value) :
    (columnValues columns values).map Prod.fst = columns := by
  simp [columnValues, List.enum, List.map_map, Function.comp_def]

/-- The number of visited maps. -/
theorem visitedEntries_length (ord : RangeOrder) (results : List GoMap) :
    ∀ i, (visitedEntries ord i results).length = results.length := by
  induction results with
  | nil => intro i; rfl
  | cons row rest ih => intro i; simp [visitedEntries, ih]

/-- The `j`-th visited map is the `j`-th row map in the order of its `range`. -/
theorem visitedEntries_get (ord : RangeOrder) (results : List GoMap) :
    ∀ i j, (visitedEntries ord i results)[j]? = results[j]?.map (ord.order (i + j)) := by
  induction results with
  | nil => intro i j; simp [visitedEntries]
  | cons row rest ih =>
    intro i j
    cases j with
    | zero => simp [visitedEntries]
    | succ j => simp [visitedEntries, ih, Nat.add_assoc, Nat.add_comm 1 j]


/-- Claim C10, refuted as stated: two columns of the same name are rendered as one line (the
value of the last one), and the lines of a block follow the order of the `range` over the row
map, here the reverse of the column order; both differ from the rendering the claim describes. -/
theorem rendering_differs_from_claim :
    (executeSQL (tableQuery ["id", "id"] [[.int 1, .int 2]]) RangeOrder.insertion
      "SELECT a.id, b.id FROM thoughts a, thoughts b").1 =
      .ok "Найдено записей: 1\n\nЗапись 1:\n  id: 2\n\n" ∧
    claimedRendering ["id", "id"] [[.int 1, .int 2]] =
      "Найдено записей: 1\n\nЗапись 1:\n  id: 1\n  id: 2\n\n" ∧
    (executeSQL (tableQuery ["id", "id"] [[.int 1, .int 2]]) RangeOrder.insertion
      "SELECT a.id, b.id FROM thoughts a, thoughts b").1 ≠
      .ok (claimedRendering ["id", "id"] [[.int 1, .int 2]]) ∧
    (executeSQL (tableQuery ["id", "thought_text"] [[.int 1, .bytes "купить молоко"]])
      RangeOrder.reversed "SELECT id, thought_text FROM thoughts").1 =
      .ok "Найдено записей: 1\n\nЗапись 1:\n  thought_text: купить молоко\n  id: 1\n\n" ∧
    (executeSQL (tableQuery ["id", "thought_text"] [[.int 1, .bytes "купить молоко"]])
      RangeOrder.reversed "SELECT id, thought_text FROM thoughts").1 ≠
      .ok (claimedRendering ["id", "thought_text"] [[.int 1, .bytes "купить молоко"]]) := by
  refine ⟨by decide, by decide, by decide, by decide, by decide⟩

/-- Claim C10, amended: for an accepted query whose rows all scan well (at least one row),
`executeSQL` returns the count line followed by one block per row, in the order returned,
numbered from 1.  The lines of a block are, in an order fixed by the `range` over the row map
and not by the code, the lines `  name: value` of the distinct column names, a repeated name
carrying the value of its last column, byte sequences rendered as text.  When the column names
are pairwise distinct these are exactly the lines of all columns. -/
theorem executeSQL_renders_rows (query : String → Except String Rows) (ord : RangeOrder)
    (q : String) (rows : Rows) (columns : List String) (rs : List (List Value))
    (hq : HasPrefix (ToUpper (TrimSpace q)) "SELECT" = true) (hr : query q = .ok rows)
    (hc : rows.columns = .ok columns) (hs : rows.scans = rs.map .ok) (hn : rs ≠ []) :
    ∃ blocks : List (List (String × Value)),
      (executeSQL query ord q).1 = .ok (renderBlocks blocks) ∧
      blocks.length = rs.length ∧
      (∀ (i : Nat) (values : List Value), rs[i]? = some values →
        ∃ entries : List (String × Value), blocks[i]? = some entries ∧
          entries.Perm (lastEntries (columnValues columns values))) ∧
      (columns.Nodup → ∀ values ∈ rs,
        lastEntries (columnValues columns values) = columnValues columns values) := by
  refine ⟨visitedEntries ord 0 (rs.map (rowMap columns)), ?_, ?_, ?_, ?_⟩
  · have hne : rs.map (rowMap columns) ≠ [] := by simpa using hn
    simp only [executeSQL, hq, Bool.not_true, Bool.false_eq_true, if_false, hr, hc, hs,
      scanRows_ok, List.nil_append, List.length_eq_zero, hne, formatRows_eq, renderBlocks,
      visitedEntries_length]
  · simp [visitedEntries_length]
  · intro i values hi
    refine ⟨ord.order i (rowMap columns values), ?_, ?_⟩
    · simp [visitedEntries_get, hi]
    · rw [← rowMap_eq]
      exact ord.perm i _
  · intro hnd values _
    exact lastEntries_of_nodup _ (by rw [columnValues_names]; exact hnd)

/-- Claim C10 amended, at a concrete input: two distinct columns, two rows. -/
theorem executeSQL_renders_rows_witness :
    (executeSQL (tableQuery ["id", "category"] [[.int 1, .text "general"], [.int 2, .null]])
      RangeOrder.insertion "select id, category from thoughts").1 =
      .ok ("Найдено записей: 2\n\nЗапись 1:\n  id: 1\n  category: general\n\n" ++
        "Запись 2:\n  id: 2\n  category: <nil>\n\n") ∧
    ∃ blocks : List (List (String × Value)),
      (executeSQL (tableQuery ["id", "category"] [[.int 1, .text "general"], [.int 2, .null]])
        RangeOrder.insertion "select id, category from thoughts").1 =
        .ok (renderBlocks blocks) ∧
      blocks.length = [[Value.int 1, .text "general"], [.int 2, .null]].length ∧
      (∀ (i : Nat) (values : List Value),
        [[Value.int 1, .text "general"], [.int 2, .null]][i]? = some values →
        ∃ entries : List (String × Value), blocks[i]? = some entries ∧
          entries.Perm (lastEntries (columnValues ["id", "category"] values))) ∧
      (["id", "category"].Nodup → ∀ values ∈ [[Value.int 1, .text "general"], [.int 2, .null]],
        lastEntries (columnValues ["id", "category"] values) =
          columnValues ["id", "category"] values) :=
  ⟨by decide, executeSQL_renders_rows
    (tableQuery ["id", "category"] [[.int 1, .text "general"], [.int 2, .null]])
    RangeOrder.insertion "select id, category from thoughts"
    ⟨.ok ["id", "category"], [.ok [.int 1, .text "general"], .ok [.int 2, .null]], none⟩
    ["id", "category"] [[.int 1, .text "general"], [.int 2, .null]]
    (by decide) rfl rfl rfl (by decide)⟩


/-! ### Errors and empty results of the executor -/

/-- A scan that fails after some rows ends the loop with the scan error. -/
theorem scanRows_scan_error (columns : List String) (pre : List (List Value)) (e : String)
    (rest : List (Except String (List Value))) :
    ∀ acc, scanRows columns (pre.map .ok ++ .error e :: rest) acc =
      .error ("ошибка сканирования строки: " ++ e) := by
  induction pre with
  | nil => intro acc; simp [scanRows]
  | cons r pre ih => intro acc; simp [scanRows, ih]

/-- Claim C11, evaluated on the code: an error at the start of the query, at the column names
or at the scan of a row makes `executeSQL` return an error and no text; but the error of the
row stream itself (`rows.Err()` after `rows.Next()` returned `false`) is never read, so the
result does not depend on it: a stream that fails after one row is rendered as a complete
result of one row, and a stream that fails before the first row as the no-results text. -/
theorem executeSQL_ignores_stream_error :
    (∀ (query : String → Except String Rows) (ord : RangeOrder) (q e : String),
      HasPrefix (ToUpper (TrimSpace q)) "SELECT" = true → query q = .error e →
      executeSQL query ord q = (.error ("ошибка выполнения SQL: " ++ e), [.query q])) ∧
    (∀ (query : String → Except String Rows) (ord : RangeOrder) (q e : String) (rows : Rows),
      HasPrefix (ToUpper (TrimSpace q)) "SELECT" = true → query q = .ok rows →
      rows.columns = .error e →
      executeSQL query ord q = (.error ("ошибка получения колонок: " ++ e), [.query q])) ∧
    (∀ (query : String → Except String Rows) (ord : RangeOrder) (q e : String) (rows : Rows)
      (columns : List String) (pre : List (List Value))
      (rest : List (Except String (List Value))),
      HasPrefix (ToUpper (TrimSpace q)) "SELECT" = true → query q = .ok rows →
      rows.columns = .ok columns → rows.scans = pre.map .ok ++ .error e :: rest →
      executeSQL query ord q = (.error ("ошибка сканирования строки: " ++ e), [.query q])) ∧
    (∀ (ord : RangeOrder) (q : String) (rows : Rows) (err : Option String),
      executeSQL (fun _ => .ok { rows with err := err }) ord q =
        executeSQL (fun _ => .ok rows) ord q) ∧
    brokenStream.err = some "disk I/O error" ∧
    executeSQL (fun _ => .ok brokenStream) RangeOrder.insertion "SELECT id FROM thoughts" =
      (.ok "Найдено записей: 1\n\nЗапись 1:\n  id: 1\n\n", [.query "SELECT id FROM thoughts"]) ∧
    brokenAtStart.err = some "database is locked" ∧
    executeSQL (fun _ => .ok brokenAtStart) RangeOrder.insertion "SELECT id FROM thoughts" =
      (.ok "Запрос выполнен успешно, но результатов не найдено.",
        [.query "SELECT id FROM thoughts"]) := by
  refine ⟨?_, ?_, ?_, ?_, rfl, by decide, rfl, by decide⟩
  · intro query ord q e hq hr
    simp [executeSQL, hq, hr]
  · intro query ord q e rows hq hr hc
    simp [executeSQL, hq, hr, hc]
  · intro query ord q e rows columns pre rest hq hr hc hs
    simp [executeSQL, hq, hr, hc, hs, scanRows_scan_error]
  · intro ord q rows err
    simp [executeSQL]

/-- Claim C12: an accepted query whose execution succeeds with zero rows returns exactly the
fixed no-results text, and the text of every successful return is non-empty. -/
theorem executeSQL_zero_rows_sentinel :
    (∀ (query : String → Except String Rows) (ord : RangeOrder) (q : String) (rows : Rows)
      (columns : List String),
      HasPrefix (ToUpper (TrimSpace q)) "SELECT" = true → query q = .ok rows →
      rows.columns = .ok columns → rows.scans = [] →
      executeSQL query ord q =
        (.ok "Запрос выполнен успешно, но результатов не найдено.", [.query q])) ∧
    (∀ (query : String → Except String Rows) (ord : RangeOrder) (q text : String),
      (executeSQL query ord q).1 = .ok text → text ≠ "") ∧
    executeSQL (tableQuery ["id"] []) RangeOrder.insertion "select id from thoughts" =
      (.ok "Запрос выполнен успешно, но результатов не найдено.",
        [.query "select id from thoughts"]) := by
  refine ⟨?_, ?_, by decide⟩
  · intro query ord q rows columns hq hr hc hs
    simp [executeSQL, hq, hr, hc, hs, scanRows]
  · intro query ord q text h
    by_cases hq : HasPrefix (ToUpper (TrimSpace q)) "SELECT" = true
    · cases hr : query q with
      | error e => simp [executeSQL, hq, hr] at h
      | ok rows =>
        cases hc : rows.columns with
        | error e => simp [executeSQL, hq, hr, hc] at h
        | ok columns =>
          cases hs : scanRows columns rows.scans [] with
          | error msg => simp [executeSQL, hq, hr, hc, hs] at h
          | ok results =>
            by_cases hl : results = []
            · simp [executeSQL, hq, hr, hc, hs, hl] at h
              rw [← h]
              decide
            · simp only [executeSQL, hq, Bool.not_true, Bool.false_eq_true, if_false, hr, hc,
                hs, List.length_eq_zero, hl, formatRows_eq, Except.ok.injEq] at h
              intro ht
              rw [ht] at h
              have := congrArg (fun s => s.data.head?) h
              simp at this
    · rw [executeSQL_rejected query ord q (by simpa using hq)] at h
      cases h


/-! ### Monotone count and fail-open lookup -/

/-- The record after `incrementUserUsage` on an existing record: the same date and a count
that is the old one or one more. -/
theorem incrementUserUsage_record (now : Clock) (db : DB) (userID : Int) (username : String)
    (row : LimitRow) (hrow : db.limitOf userID = some row) :
    ∃ row', (incrementUserUsage now db userID username).2.limitOf userID = some row' ∧
      row'.date = row.date ∧ row.request_count ≤ row'.request_count ∧
      row'.request_count ≤ row.request_count + 1 := by
  by_cases hu : username = "roman8890"
  · exact ⟨row, by simp [incrementUserUsage, hu, hrow], rfl, Nat.le_refl _, Nat.le_succ _⟩
  · cases ht : db.user_limits with
    | none => simp [DB.limitOf, ht] at hrow
    | some t =>
      have hr : t userID = some row := by simpa [DB.limitOf, ht] using hrow
      by_cases hd : row.date = dateNow now
      · exact ⟨{ row with request_count := row.request_count + 1 },
          by simp [incrementUserUsage, hu, ht, hr, hd, DB.putLimit, DB.limitOf], rfl,
          Nat.le_succ _, Nat.le_refl _⟩
      · exact ⟨row, by simp [incrementUserUsage, hu, ht, hr, hd, DB.limitOf], rfl,
          Nat.le_refl _, Nat.le_succ _⟩

/-- On an existing record of a user other than the owner `checkUserLimit` leaves the record
with today's date and count 0, whatever date it held. -/
theorem checkUserLimit_record (now : Clock) (db : DB) (userID : Int) (username : String)
    (row : LimitRow) (hu : username ≠ "roman8890") (hrow : db.limitOf userID = some row) :
    (checkUserLimit now db userID username).2.limitOf userID =
      some { row with date := dateNow now, request_count := 0 } := by
  cases ht : db.user_limits with
  | none => simp [DB.limitOf, ht] at hrow
  | some t =>
    have hr : t userID = some row := by simpa [DB.limitOf, ht] using hrow
    rw [checkUserLimit_found now db userID username t row hu ht hr]
    simp [DB.putLimit, DB.limitOf]

/-- Claim C14, evaluated on the code: `incrementUserUsage` never lowers a count, but
`checkUserLimit` sets the count of every existing record of a user other than the owner back
to 0, also when the stored window date is today: the date it compares is the scanned one, in
the layout RFC3339, which never equals the text of `date('now')`.  On a record of today with
count 1 the check leaves count 0, and after the following increment the next check of the
same day sets the count back to 0 again. -/
theorem checkUserLimit_resets_same_day :
    (∀ (now : Clock) (db : DB) (userID : Int) (username : String) (row : LimitRow),
      username ≠ "roman8890" → db.limitOf userID = some row →
      (checkUserLimit now db userID username).2.limitOf userID =
        some { row with date := dateNow now, request_count := 0 }) ∧
    (∀ (now : Clock) (db : DB) (userID : Int) (username : String) (row : LimitRow),
      db.limitOf userID = some row →
      ∃ row', (incrementUserUsage now db userID username).2.limitOf userID = some row' ∧
        row.request_count ≤ row'.request_count) ∧
    dateNow sampleClock = "2024-01-15" ∧
    "alice" ≠ "roman8890" ∧
    (sampleDB ⟨"alice", "2024-01-15", 1⟩).limitOf 7 = some ⟨"alice", "2024-01-15", 1⟩ ∧
    (checkUserLimit sampleClock (sampleDB ⟨"alice", "2024-01-15", 1⟩) 7 "alice").2.limitOf 7 =
      some ⟨"alice", "2024-01-15", 0⟩ ∧
    (incrementUserUsage sampleClock
      (checkUserLimit sampleClock (sampleDB ⟨"alice", "2024-01-15", 1⟩) 7 "alice").2
      7 "alice").2.limitOf 7 = some ⟨"alice", "2024-01-15", 1⟩ ∧
    (checkUserLimit sampleClock
      (incrementUserUsage sampleClock
        (checkUserLimit sampleClock (sampleDB ⟨"alice", "2024-01-15", 1⟩) 7 "alice").2
        7 "alice").2 7 "alice").2.limitOf 7 = some ⟨"alice", "2024-01-15", 0⟩ := by
  refine ⟨checkUserLimit_record, ?_, by decide, by decide, by decide, by decide, by decide,
    by decide⟩
  intro now db userID username row hrow
  obtain ⟨row', h1, _, h3, _⟩ := incrementUserUsage_record now db userID username row hrow
  exact ⟨row', h1, h3⟩

/-- Claim C15: when the lookup of `checkUserLimit` fails with an error other than "no rows",
on any store, also one whose table and row are in place, `checkUserLimit` returns `false`
(allowed) and the store as it was: no insert, no update; the function has no error result.
On a store whose table cannot be read the gate of the loop lets the message through.  At a
concrete input: a locked file in which the record of `alice` stands at five requests. -/
theorem checkUserLimit_fails_open (now : Clock) (db : DB) (userID : Int) (username : String)
    (err : String) :
    checkUserLimitOn (.failed err) now db userID username = (false, db) ∧
    (db.user_limits = none →
      scanLimit db userID = .failed "no such table: user_limits" ∧
      checkUserLimit now db userID username = (false, db) ∧
      ∀ (env : Env) (m : Message), (quotaGate env db m).1 = none ∧
        (quotaGate env db m).2.user_limits = none) ∧
    "alice" ≠ "roman8890" ∧
    (checkUserLimitOn lockedLookup sampleClock (sampleDB ⟨"alice", "2024-01-14", 5⟩) 7
      "alice").1 = false ∧
    (checkUserLimitOn lockedLookup sampleClock (sampleDB ⟨"alice", "2024-01-14", 5⟩) 7
      "alice").2.limitOf 7 = some ⟨"alice", "2024-01-14", 5⟩ := by
  refine ⟨?_, ?_, by decide, by decide, by decide⟩
  · by_cases hu : username = "roman8890" <;> simp [checkUserLimitOn, hu]
  · intro hfail
    have hi : ∀ n u s, (incrementUserUsage n db u s).2 = db := by
      intro n u s
      by_cases hu : s = "roman8890" <;> simp [incrementUserUsage, hu, hfail]
    refine ⟨by simp [scanLimit, hfail], checkUserLimit_noTable now db userID username hfail,
      ?_⟩
    intro env m
    refine ⟨quotaGate_allows env db m, ?_⟩
    unfold quotaGate
    split
    · simp [checkUserLimit_allows, checkUserLimit_noTable _ db _ _ hfail, hi, hfail]
    · exact hfail

/-! ### The table of the interaction records -/

/-- The note branch leaves table `messages` as it was. -/
theorem noteAnswer_messages (env : Env) (db : DB) (m : Message) (thoughtText : String) :
    (noteAnswer env db m thoughtText).2.messages = db.messages := by
  have hs : ∀ t c, (saveThought env.now db t c).2.messages = db.messages := by
    intro t c
    unfold saveThought
    split <;> rfl
  unfold noteAnswer
  split
  · rfl
  · split
    · rfl
    · dsimp only
      split <;> exact hs _ _

/-- Without table `messages` the end of the text branch leaves the store without it. -/
theorem textDeliver_messages (env : Env) (db : DB) (m : Message) (userText gptResponse : String)
    (h : db.messages = none) :
    (textDeliver env db m userText gptResponse).1.messages = none := by
  unfold textDeliver
  simp only [saveMessage, h]
  repeat' split
  all_goals exact h

/-- Without table `messages` the end of the voice branch leaves the store without it. -/
theorem voiceDeliver_messages (env : Env) (db : DB) (m : Message)
    (recognizedText gptResponse : String) (h : db.messages = none) :
    (voiceDeliver env db m recognizedText gptResponse).1.messages = none := by
  unfold voiceDeliver
  simp only [saveMessage, h]
  repeat' split
  all_goals exact h

/-- An engine that creates table `messages` for no statement text leaves the store without
the table after the queries of any trace. -/
theorem afterQueries_messages (env : Env)
    (hq : ∀ (d : DB) (q : String), d.messages = none → (env.exec d q).messages = none)
    (trace : List Event) :
    ∀ db : DB, db.messages = none → (afterQueries env db trace).messages = none := by
  induction trace with
  | nil => intro db h; exact h
  | cons e rest ih =>
    intro db h
    cases e with
    | query sqlQuery => exact ih _ (hq db sqlQuery h)
    | _ => exact ih _ h

/-- Without table `messages`, and with an engine that does not create it, the text branch
leaves the store without it. -/
theorem textBranch_messages (env : Env) (db : DB) (m : Message)
    (hq : ∀ (d : DB) (q : String), d.messages = none → (env.exec d q).messages = none)
    (h : db.messages = none) :
    (textBranch env db m).1.messages = none := by
  unfold textBranch
  dsimp only
  split
  · rename_i thoughtText _
    have hn : (noteAnswer env db m thoughtText).2.messages = none := by
      rw [noteAnswer_messages, h]
    split
    · exact hn
    · exact textDeliver_messages env _ m _ _ hn
  · have ha := afterQueries_messages env hq
    split
    · exact ha _ db h
    · exact textDeliver_messages env _ m _ _ (ha _ db h)
  · split
    · exact h
    · exact textDeliver_messages env _ m _ _ h

/-- Without table `messages`, and with an engine that does not create it, the voice branch
leaves the store without it. -/
theorem voiceBranch_messages (env : Env) (db : DB) (m : Message) (fileID : String)
    (hq : ∀ (d : DB) (q : String), d.messages = none → (env.exec d q).messages = none)
    (h : db.messages = none) : (voiceBranch env db m fileID).1.messages = none := by
  have hr : ∀ t, (voiceRecognized env db m t).1.messages = none := by
    intro t
    unfold voiceRecognized
    split
    · rename_i thoughtText _
      have hn : (noteAnswer env db m thoughtText).2.messages = none := by
        rw [noteAnswer_messages, h]
      dsimp only
      split
      · exact hn
      · exact voiceDeliver_messages env _ m _ _ hn
    · have ha := afterQueries_messages env hq
      dsimp only
      split
      · exact ha _ db h
      · exact voiceDeliver_messages env _ m _ _ (ha _ db h)
    · dsimp only
      split
      · exact h
      · exact voiceDeliver_messages env _ m _ _ h
  unfold voiceBranch
  dsimp only
  repeat' split
  all_goals first | exact h | exact hr _

/-- The command switch leaves the store as it was. -/
theorem commandBranch_store (env : Env) (db : DB) (m : Message) :
    (commandBranch env db m).1 = db := by
  unfold commandBranch
  dsimp only
  repeat' split
  all_goals rfl

/-- Without table `messages`, and with an engine that does not create it, one iteration of
the loop leaves the store without it. -/
theorem handleUpdate_messages (env : Env) (db : DB) (message : Option Message)
    (hq : ∀ (d : DB) (q : String), d.messages = none → (env.exec d q).messages = none)
    (h : db.messages = none) : (handleUpdate env db message).1.messages = none := by
  cases message with
  | none => exact h
  | some m =>
    have hg : (quotaGate env db m).2.messages = none := by rw [(quotaGate_tables env db m).2, h]
    unfold handleUpdate
    dsimp only
    split
    · exact hg
    · split
      · exact voiceBranch_messages env _ m _ hq hg
      · split
        · rw [commandBranch_store]; exact hg
        · split
          · exact textBranch_messages env _ m hq hg
          · exact hg

/-- Without table `messages` no sequence of updates whose engines do not create it leaves the
store with it. -/
theorem handleAll_messages (updates : List (Env × Option Message)) :
    (∀ u ∈ updates, ∀ (d : DB) (q : String),
      d.messages = none → (u.1.exec d q).messages = none) →
    ∀ db : DB, db.messages = none → (handleAll db updates).messages = none := by
  induction updates with
  | nil => intro _ db h; exact h
  | cons u rest ih =>
    intro hq db h
    exact ih (fun v hv => hq v (List.mem_cons_of_mem u hv)) _
      (handleUpdate_messages u.1 db u.2 (hq u (List.mem_cons_self u rest)) h)

set_option maxRecDepth 100000 in
/-- Claim C17, refuted as stated: `executeSQL` hands every text that begins with `SELECT` to
`db.Query` on the read-write handle.  When the language model translates a request into
`SELECT 1; CREATE TABLE messages (...)`, the text passes the guard, the engine creates table
`messages`, and the `saveMessage` of that very exchange and every later one succeeds: the
record of the exchange is stored, on a store that was empty before `initDB`. -/
theorem messages_table_created_by_query :
    HasPrefix (ToUpper (TrimSpace createMessagesSQL)) "SELECT" = true ∧
    (initDB DB.empty).messages = none ∧
    (handleUpdate creatingEnv (initDB DB.empty) (some (sampleMessage "база заведи таблицу"))).2 =
      [.send 100 "💾 Обрабатываю запрос к базе данных...",
        .chatCompletion "gpt-4o-mini" sqlSystemPrompt "заведи таблицу",
        .query createMessagesSQL,
        .chatCompletion "gpt-4o-mini" formatSystemPrompt
          ("Вопрос пользователя: заведи таблицу\n\nРезультаты из базы данных:\n" ++
            "Запрос выполнен успешно, но результатов не найдено."),
        .send 100 "🎤 Генерирую голосовое сообщение...",
        .textToSpeech "ok",
        .sendVoice 100 "🔊 ok" true,
        .saveMessage 7 "alice" "text" "база заведи таблицу" "voice" "ok"] ∧
    (handleAll (initDB DB.empty)
      [(creatingEnv, some (sampleMessage "база заведи таблицу"))]).messages =
      some [⟨"2024-01-15 12:30:00", 7, "alice", "text", "база заведи таблицу", "voice",
        "ok"⟩] ∧
    (saveMessage sampleClock
      (handleAll (initDB DB.empty) [(creatingEnv, some (sampleMessage "база заведи таблицу"))])
      8 "bob" "text" "привет" "voice" "ok").1 = .ok () := by
  refine ⟨by decide, rfl, by rfl, by rfl, by rfl⟩

/-- Claim C17, amended: `initDB` creates the tables `thoughts` and `user_limits` and leaves
table `messages` as it finds it.  On a store that was empty before `initDB`, after any
sequence of handled updates in which no statement text run by `db.Query` created table
`messages`, the table is missing, every `saveMessage` fails with an error and stores nothing;
the loop discards that result, so after a successful delivery the trace ends with the
`saveMessage` call, no further reply is sent and no record exists. -/
theorem messages_table_missing_until_created (updates : List (Env × Option Message))
    (hq : ∀ u ∈ updates, ∀ (d : DB) (q : String),
      d.messages = none → (u.1.exec d q).messages = none) :
    (∀ db : DB, (initDB db).messages = db.messages ∧ (initDB db).thoughts.isSome = true ∧
      (initDB db).user_limits.isSome = true) ∧
    (initDB DB.empty).messages = none ∧
    (handleAll (initDB DB.empty) updates).messages = none ∧
    (∀ (now : Clock) (userID : Int)
      (username messageType inputText responseType responseText : String),
      saveMessage now (handleAll (initDB DB.empty) updates) userID username messageType
        inputText responseType responseText =
        (.error "ошибка записи в БД: no such table: messages",
          handleAll (initDB DB.empty) updates)) ∧
    (∀ (env : Env) (db : DB) (m : Message) (userText gptResponse audio file : String),
      db.messages = none → len gptResponse ≤ 500 →
      env.textToSpeech gptResponse = .ok audio → env.CreateTemp "voice-*.mp3" = .ok file →
      env.sendVoice m.chatID file ("🔊 " ++ gptResponse) = .ok () →
      textDeliver env db m userText gptResponse =
        (db, [.send m.chatID "🎤 Генерирую голосовое сообщение...",
          .textToSpeech gptResponse, .sendVoice m.chatID ("🔊 " ++ gptResponse) true,
          .saveMessage m.fromID m.fromUserName "text" userText "voice" gptResponse])) ∧
    (∀ (env : Env) (db : DB) (m : Message) (recognizedText gptResponse audio file : String),
      db.messages = none → len gptResponse ≤ 500 →
      env.textToSpeech gptResponse = .ok audio →
      env.CreateTemp "voice-response-*.mp3" = .ok file →
      env.sendVoice m.chatID file ("🔊 " ++ gptResponse) = .ok () →
      voiceDeliver env db m recognizedText gptResponse =
        (db, [.send m.chatID "🎤 Генерирую голосовое сообщение...",
          .textToSpeech gptResponse, .sendVoice m.chatID ("🔊 " ++ gptResponse) true,
          .saveMessage m.fromID m.fromUserName "voice" recognizedText "voice"
            gptResponse])) ∧
    (handleUpdate (sampleEnv "ok") (initDB DB.empty) (some (sampleMessage "привет"))).2 =
      [.send 100 "🤖 Думаю над ответом...",
        .chatCompletion "gpt-4o-mini" chatSystemPrompt "привет",
        .send 100 "🎤 Генерирую голосовое сообщение...",
        .textToSpeech "ok",
        .sendVoice 100 "🔊 ok" true,
        .saveMessage 7 "alice" "text" "привет" "voice" "ok"] ∧
    (handleUpdate (sampleEnv "ok") (initDB DB.empty)
      (some (sampleMessage "привет"))).1.messages = none := by
  have hsave : ∀ (db : DB) (now : Clock) (userID : Int) (a b c d e : String),
      db.messages = none →
      saveMessage now db userID a b c d e =
        (.error "ошибка записи в БД: no such table: messages", db) := by
    intro db now userID a b c d e h
    simp [saveMessage, h]
  have hall := handleAll_messages updates hq _ (show (initDB DB.empty).messages = none from rfl)
  refine ⟨fun db => ⟨rfl, rfl, rfl⟩, rfl, hall, ?_, ?_, ?_, by decide, by decide⟩
  · intro now userID a b c d e
    exact hsave _ now userID a b c d e hall
  · intro env db m userText gptResponse audio file hm hl ht hc hv
    have hl' : ¬ len gptResponse > 500 := Nat.not_lt.2 hl
    simp [textDeliver, hl', ht, hc, hv, hsave db _ _ _ _ _ _ _ hm]
  · intro env db m recognizedText gptResponse audio file hm hl ht hc hv
    have hl' : ¬ len gptResponse > 500 := Nat.not_lt.2 hl
    simp [voiceDeliver, hl', ht, hc, hv, hsave db _ _ _ _ _ _ _ hm]

/-- Claim C17 amended, at a concrete input: a chat message and a structured query, handled
with an engine that leaves the store as it was. -/
theorem messages_table_missing_until_created_witness :
    (∀ u ∈ [(sampleEnv "ok", some (sampleMessage "привет")),
        (sampleEnv "ok", some (sampleMessage "база сколько мыслей"))],
      ∀ (d : DB) (q : String), d.messages = none → (u.1.exec d q).messages = none) ∧
    (handleAll (initDB DB.empty)
      [(sampleEnv "ok", some (sampleMessage "привет")),
        (sampleEnv "ok", some (sampleMessage "база сколько мыслей"))]).messages = none ∧
    (saveMessage sampleClock
      (handleAll (initDB DB.empty)
        [(sampleEnv "ok", some (sampleMessage "привет")),
          (sampleEnv "ok", some (sampleMessage "база сколько мыслей"))])
      7 "alice" "text" "привет" "voice" "ok").1 =
      .error "ошибка записи в БД: no such table: messages" :=
  have hq : ∀ u ∈ [(sampleEnv "ok", some (sampleMessage "привет")),
      (sampleEnv "ok", some (sampleMessage "база сколько мыслей"))],
      ∀ (d : DB) (q : String), d.messages = none → (u.1.exec d q).messages = none := by
    intro u hu d q h
    simp only [List.mem_cons, List.mem_singleton, List.not_mem_nil, or_false] at hu
    rcases hu with rfl | rfl <;> exact h
  have h := messages_table_missing_until_created
    [(sampleEnv "ok", some (sampleMessage "привет")),
      (sampleEnv "ok", some (sampleMessage "база сколько мыслей"))] hq
  ⟨hq, h.2.2.1, by rw [h.2.2.2.1]⟩

/-! ### A response without candidates -/

set_option maxRecDepth 100000 in
/-- Claim C18: on a response with zero candidates `generateSQL` returns an error, and the
structured-query pipeline stops with the error reply, without synthesis and without record;
`formatSQLResults` and `getChatGPTResponse` return a fixed phrase as a success, and the
pipeline treats the phrase as the answer: it is synthesized, delivered and, after the
successful delivery, stored as the response text of an interaction record. -/
theorem zero_candidates_disagree :
    (∀ (env : Env) (userQuery : String),
      env.CreateChatCompletion env.model sqlSystemPrompt userQuery = .ok [] →
      generateSQL env userQuery =
        (.error "GPT не вернул SQL запрос",
          [.chatCompletion env.model sqlSystemPrompt userQuery]) ∧
      ∀ chatID, databaseAnswer env chatID userQuery =
        (.error (), [.send chatID "💾 Обрабатываю запрос к базе данных...",
          .chatCompletion env.model sqlSystemPrompt userQuery,
          .send chatID ("❌ Ошибка генерации SQL: " ++ "GPT не вернул SQL запрос")])) ∧
    (∀ (env : Env) (userQuery sqlResults : String),
      env.CreateChatCompletion env.model formatSystemPrompt
        ("Вопрос пользователя: " ++ userQuery ++ "\n\nРезультаты из базы данных:\n" ++
          sqlResults) = .ok [] →
      (formatSQLResults env userQuery sqlResults).1 = .ok "Не удалось сформировать ответ.") ∧
    (∀ (env : Env) (userMessage : String),
      env.CreateChatCompletion env.model chatSystemPrompt userMessage = .ok [] →
      (getChatGPTResponse env userMessage).1 = .ok "Извините, не удалось получить ответ.") ∧
    (handleUpdate silentEnv (sampleDB ⟨"alice", "2024-01-15", 0⟩)
      (some (sampleMessage "база сколько мыслей"))).2 =
      [.send 100 "💾 Обрабатываю запрос к базе данных...",
        .chatCompletion "gpt-4o-mini" sqlSystemPrompt "сколько мыслей",
        .send 100 "❌ Ошибка генерации SQL: GPT не вернул SQL запрос"] ∧
    (handleUpdate silentEnv (sampleDB ⟨"alice", "2024-01-15", 0⟩)
      (some (sampleMessage "база сколько мыслей"))).1.messages = some [] ∧
    (handleUpdate silentEnv (sampleDB ⟨"alice", "2024-01-15", 0⟩)
      (some (sampleMessage "привет"))).2 =
      [.send 100 "🤖 Думаю над ответом...",
        .chatCompletion "gpt-4o-mini" chatSystemPrompt "привет",
        .send 100 "🎤 Генерирую голосовое сообщение...",
        .textToSpeech "Извините, не удалось получить ответ.",
        .sendVoice 100 "🔊 Извините, не удалось получить ответ." true,
        .saveMessage 7 "alice" "text" "привет" "voice"
          "Извините, не удалось получить ответ."] ∧
    (handleUpdate silentEnv (sampleDB ⟨"alice", "2024-01-15", 0⟩)
      (some (sampleMessage "привет"))).1.messages =
      some [⟨"2024-01-15 12:30:00", 7, "alice", "text", "привет", "voice",
        "Извините, не удалось получить ответ."⟩] ∧
    (handleUpdate silentFormatEnv (sampleDB ⟨"alice", "2024-01-15", 0⟩)
      (some (sampleMessage "база сколько мыслей"))).2 =
      [.send 100 "💾 Обрабатываю запрос к базе данных...",
        .chatCompletion "gpt-4o-mini" sqlSystemPrompt "сколько мыслей",
        .query "SELECT id, thought_text FROM thoughts",
        .chatCompletion "gpt-4o-mini" formatSystemPrompt
          ("Вопрос пользователя: сколько мыслей\n\nРезультаты из базы данных:\n" ++
            "Найдено записей: 1\n\nЗапись 1:\n  id: 1\n  thought_text: купить молоко\n\n"),
        .send 100 "🎤 Генерирую голосовое сообщение...",
        .textToSpeech "Не удалось сформировать ответ.",
        .sendVoice 100 "🔊 Не удалось сформировать ответ." true,
        .saveMessage 7 "alice" "text" "база сколько мыслей" "voice"
          "Не удалось сформировать ответ."] ∧
    (handleUpdate silentFormatEnv (sampleDB ⟨"alice", "2024-01-15", 0⟩)
      (some (sampleMessage "база сколько мыслей"))).1.messages =
      some [⟨"2024-01-15 12:30:00", 7, "alice", "text", "база сколько мыслей", "voice",
        "Не удалось сформировать ответ."⟩] := by
  refine ⟨?_, ?_, ?_, by rfl, by rfl, by rfl, by rfl, by rfl, by rfl⟩
  · intro env userQuery h
    have hg : generateSQL env userQuery =
        (.error "GPT не вернул SQL запрос",
          [.chatCompletion env.model sqlSystemPrompt userQuery]) := by
      simp [generateSQL, h]
    refine ⟨hg, fun chatID => ?_⟩
    simp [databaseAnswer, hg]
  · intro env userQuery sqlResults h
    simp [formatSQLResults, h]
  · intro env userMessage h
    simp [getChatGPTResponse, h]


/-! ### Reach of the read-only guard -/

/-- Dropping a run of matching elements stops at the first element that does not match. -/
theorem dropWhile_append_stop {α : Type} (p : α → Bool) (xs : List α) (y : α) (ys : List α)
    (hy : p y = false) : ∃ zs, (xs ++ y :: ys).dropWhile p = zs ++ y :: ys := by
  induction xs with
  | nil => exact ⟨[], by simp [List.dropWhile, hy]⟩
  | cons x xs ih =>
    by_cases hx : p x = true
    · obtain ⟨zs, h⟩ := ih
      exact ⟨zs, by simpa [List.dropWhile, hx] using h⟩
    · exact ⟨x :: xs, by simp [List.dropWhile, hx]⟩

/-- Trimming a text that begins with `SELECT` keeps that beginning. -/
theorem TrimSpace_select (s : String) :
    ∃ rest, (TrimSpace ("SELECT" ++ s)).data = "SELECT".data ++ rest := by
  have h0 : ("SELECT" ++ s).data = ['S', 'E', 'L', 'E', 'C', 'T'] ++ s.data := by
    rw [String.data_append]
  have h1 : (['S', 'E', 'L', 'E', 'C', 'T'] ++ s.data).dropWhile isSpace =
      ['S', 'E', 'L', 'E', 'C', 'T'] ++ s.data := by
    simp [List.dropWhile, show isSpace 'S' = false by decide]
  have h2 : (['S', 'E', 'L', 'E', 'C', 'T'] ++ s.data).reverse =
      s.data.reverse ++ 'T' :: ['C', 'E', 'L', 'E', 'S'] := by
    simp
  obtain ⟨zs, hz⟩ := dropWhile_append_stop isSpace s.data.reverse 'T' ['C', 'E', 'L', 'E', 'S']
    (by decide)
  refine ⟨zs.reverse, ?_⟩
  unfold TrimSpace
  simp only [h0, h1, h2, hz]
  simp

/-- The guard accepts a query exactly when the first six code points of its trimmed form
upper-case to `SELECT`. -/
theorem guard_iff_first_six (q : String) :
    HasPrefix (ToUpper (TrimSpace q)) "SELECT" = true ↔
      ((TrimSpace q).data.take 6).map toUpperRune = "SELECT".data := by
  rw [HasPrefix_iff, List.prefix_iff_eq_take, ToUpper, ← List.map_take,
    show "SELECT".data.length = 6 by decide]
  exact eq_comm

/-- Claim C16: the guard of `executeSQL` depends only on the first six code points of the
trimmed query, compared through `ToUpper`: two queries whose trimmed forms agree there (up to
case, in particular exactly) get the same decision.  Hence every text `SELECT` followed by any
suffix passes the guard and is issued to the store as it is, including
`SELECT 1; DROP TABLE thoughts` and `SELECTED`. -/
theorem guard_reads_six_code_points :
    (∀ q₁ q₂ : String,
      ((TrimSpace q₁).data.take 6).map toUpperRune =
        ((TrimSpace q₂).data.take 6).map toUpperRune →
      HasPrefix (ToUpper (TrimSpace q₁)) "SELECT" =
        HasPrefix (ToUpper (TrimSpace q₂)) "SELECT") ∧
    (∀ q₁ q₂ : String, (TrimSpace q₁).data.take 6 = (TrimSpace q₂).data.take 6 →
      HasPrefix (ToUpper (TrimSpace q₁)) "SELECT" =
        HasPrefix (ToUpper (TrimSpace q₂)) "SELECT") ∧
    (∀ s : String, HasPrefix (ToUpper (TrimSpace ("SELECT" ++ s))) "SELECT" = true) ∧
    (∀ (query : String → Except String Rows) (ord : RangeOrder) (s : String),
      (executeSQL query ord ("SELECT" ++ s)).2 = [.query ("SELECT" ++ s)]) ∧
    (∀ (query : String → Except String Rows) (ord : RangeOrder),
      (executeSQL query ord "SELECT 1; DROP TABLE thoughts").2 =
        [.query "SELECT 1; DROP TABLE thoughts"] ∧
      (executeSQL query ord "SELECTED").2 = [.query "SELECTED"]) := by
  have h1 : ∀ q₁ q₂ : String,
      ((TrimSpace q₁).data.take 6).map toUpperRune =
        ((TrimSpace q₂).data.take 6).map toUpperRune →
      HasPrefix (ToUpper (TrimSpace q₁)) "SELECT" =
        HasPrefix (ToUpper (TrimSpace q₂)) "SELECT" := by
    intro q₁ q₂ h
    rw [Bool.eq_iff_iff, guard_iff_first_six, guard_iff_first_six, h]
  have h3 : ∀ s : String, HasPrefix (ToUpper (TrimSpace ("SELECT" ++ s))) "SELECT" = true := by
    intro s
    obtain ⟨rest, hr⟩ := TrimSpace_select s
    rw [HasPrefix_iff, ToUpper, hr, List.map_append,
      show "SELECT".data.map toUpperRune = "SELECT".data by decide]
    exact List.prefix_append _ _
  refine ⟨h1, fun q₁ q₂ h => h1 q₁ q₂ (by rw [h]), h3,
    fun query ord s => (executeSQL_accepted query ord _ (h3 s)).1,
    fun query ord => ⟨(executeSQL_accepted query ord _ (by decide)).1,
      (executeSQL_accepted query ord _ (by decide)).1⟩⟩


/-! ### Code fences around the translated query -/

/-- Leading white space is dropped. -/
theorem dropWhile_blank_append (a l : List Char) (ha : Blank a) :
    (a ++ l).dropWhile isSpace = l.dropWhile isSpace := by
  induction a with
  | nil => rfl
  | cons x a ih =>
    have hx : isSpace x = true := ha x (List.mem_cons_self _ _)
    simp only [List.cons_append, List.dropWhile_cons, hx, if_true]
    exact ih fun c hc => ha c (List.mem_cons_of_mem _ hc)

/-- A text that does not begin with white space is left alone. -/
theorem dropWhile_head (l : List Char) (h : ∀ c, l.head? = some c → isSpace c = false) :
    l.dropWhile isSpace = l := by
  cases l with
  | nil => rfl
  | cons x t => simp [List.dropWhile_cons, h x rfl]

/-- Trimming removes exactly the white space around a text that has none at its ends. -/
theorem TrimSpace_core (a core d : List Char) (ha : Blank a) (hd : Blank d)
    (hc : Trimmed core) : TrimSpace ⟨a ++ core ++ d⟩ = ⟨core⟩ := by
  unfold TrimSpace
  congr 1
  show (((a ++ core ++ d).dropWhile isSpace).reverse.dropWhile isSpace).reverse = core
  rw [List.append_assoc, dropWhile_blank_append a _ ha]
  cases core with
  | nil =>
    have : ([] ++ d).dropWhile isSpace = [] := List.dropWhile_eq_nil_iff.2 (by simpa using hd)
    rw [this]
    rfl
  | cons x t =>
    have hx : isSpace x = false := hc.1 x rfl
    have h1 : (x :: t ++ d).dropWhile isSpace = x :: t ++ d := by
      simp [List.dropWhile_cons, hx]
    have hdr : Blank d.reverse := fun c hc => hd c (List.mem_reverse.1 hc)
    rw [h1, List.reverse_append, dropWhile_blank_append _ _ hdr,
      dropWhile_head _ (by rw [List.head?_reverse]; exact hc.2), List.reverse_reverse]

/-- Removing a prefix that is there. -/
theorem TrimPrefix_append (p : String) (rest : List Char) :
    TrimPrefix ⟨p.data ++ rest⟩ p = ⟨rest⟩ := by
  have h : HasPrefix ⟨p.data ++ rest⟩ p = true := (HasPrefix_iff _ _).2 (List.prefix_append _ _)
  simp [TrimPrefix, h]

/-- Removing a prefix that is not there. -/
theorem TrimPrefix_none (s p : String) (h : ¬ p.data <+: s.data) : TrimPrefix s p = s := by
  have h' : HasPrefix s p = false := by
    rw [Bool.eq_false_iff]
    exact fun hp => h ((HasPrefix_iff _ _).1 hp)
  simp [TrimPrefix, h']

/-- Removing a suffix that is there. -/
theorem TrimSuffix_append (p : String) (rest : List Char) :
    TrimSuffix ⟨rest ++ p.data⟩ p = ⟨rest⟩ := by
  have h : HasSuffix ⟨rest ++ p.data⟩ p = true := by
    simp [HasSuffix]
  simp [TrimSuffix, h]

/-- Removing a suffix that is not there. -/
theorem TrimSuffix_none (s p : String) (h : ¬ p.data <:+ s.data) : TrimSuffix s p = s := by
  have h' : HasSuffix s p = false := by
    rw [Bool.eq_false_iff]
    intro hp
    exact h (by simpa [HasSuffix] using hp)
  simp [TrimSuffix, h']


/-- The code points of the two fence literals. -/
theorem fence_data :
    "```".data = [backtick, backtick, backtick] ∧
    "```sql".data = [backtick, backtick, backtick] ++ ['s', 'q', 'l'] ∧
    "sql".data = ['s', 'q', 'l'] := by
  refine ⟨by decide, by decide, by decide⟩

/-- A text between two fences has no white space at its ends. -/
theorem Trimmed_fenced (tag mid : List Char) :
    Trimmed ([backtick, backtick, backtick] ++ tag ++ mid ++ [backtick, backtick, backtick]) := by
  constructor
  · intro c h
    simp at h
    rw [← h]
    decide
  · intro c h
    rw [List.getLast?_append_of_ne_nil _ (by simp)] at h
    simp at h
    rw [← h]
    decide

/-- The closing fence does not begin blank text, a text without backtick, blank text and a
fence, unless all three are empty. -/
theorem fence_not_prefix (b q c : List Char) (hb : Blank b) (hc : Blank c)
    (hq : backtick ∉ q) (hne : ¬ (b = [] ∧ q = [] ∧ c = [])) :
    ¬ [backtick, backtick, backtick] <+: b ++ q ++ c ++ [backtick, backtick, backtick] := by
  intro h
  cases b with
  | cons x b' =>
    have hx := hb x (List.mem_cons_self _ _)
    simp only [List.cons_append, List.cons_prefix_cons] at h
    rw [← h.1] at hx
    exact absurd hx (by decide)
  | nil =>
    cases q with
    | cons x q' =>
      simp only [List.nil_append, List.cons_append, List.cons_prefix_cons] at h
      exact hq (h.1 ▸ List.mem_cons_self _ _)
    | nil =>
      cases c with
      | cons x c' =>
        have hx := hc x (List.mem_cons_self _ _)
        simp only [List.nil_append, List.cons_append, List.cons_prefix_cons] at h
        rw [← h.1] at hx
        exact absurd hx (by decide)
      | nil => exact hne ⟨rfl, rfl, rfl⟩

/-- The tag `sql` does not begin blank text, a query, blank text and a fence, unless the blank
text is empty and the query begins with `sql`. -/
theorem sql_not_prefix (b q c : List Char) (hb : Blank b) (hc : Blank c)
    (h : b ≠ [] ∨ ¬ ['s', 'q', 'l'] <+: q) :
    ¬ ['s', 'q', 'l'] <+: b ++ q ++ c ++ [backtick, backtick, backtick] := by
  intro hp
  have space_ne : ∀ (x y : Char), isSpace x = true → isSpace y = false → y ≠ x := by
    intro x y hx hy hxy
    rw [hxy, hx] at hy
    cases hy
  cases b with
  | cons x b' =>
    simp only [List.cons_append, List.cons_prefix_cons] at hp
    exact space_ne x 's' (hb x (List.mem_cons_self _ _)) (by decide) hp.1
  | nil =>
    have hq : ¬ ['s', 'q', 'l'] <+: q := by
      rcases h with h | h
      · exact absurd rfl h
      · exact h
    simp only [List.nil_append] at hp
    rcases q with _ | ⟨x, _ | ⟨y, _ | ⟨z, t⟩⟩⟩
    · rcases c with _ | ⟨w, c'⟩
      · simp only [List.nil_append, List.cons_prefix_cons] at hp
        exact absurd hp.1 (by decide)
      · simp only [List.nil_append, List.cons_append, List.cons_prefix_cons] at hp
        exact space_ne w 's' (hc w (List.mem_cons_self _ _)) (by decide) hp.1
    · rcases c with _ | ⟨w, c'⟩
      · simp only [List.cons_append, List.nil_append, List.cons_prefix_cons] at hp
        exact absurd hp.2.1 (by decide)
      · simp only [List.cons_append, List.nil_append, List.cons_prefix_cons] at hp
        exact space_ne w 'q' (hc w (List.mem_cons_self _ _)) (by decide) hp.2.1
    · rcases c with _ | ⟨w, c'⟩
      · simp only [List.cons_append, List.nil_append, List.cons_prefix_cons] at hp
        exact absurd hp.2.2.1 (by decide)
      · simp only [List.cons_append, List.nil_append, List.cons_prefix_cons] at hp
        exact space_ne w 'l' (hc w (List.mem_cons_self _ _)) (by decide) hp.2.2.1
    · simp only [List.cons_append, List.cons_prefix_cons] at hp
      apply hq
      simp only [List.cons_prefix_cons]
      exact ⟨hp.1, hp.2.1, hp.2.2.1, List.nil_prefix⟩

/-- The steps of `stripFence` after the first trim, on blank text, a query and blank text
followed by the closing fence: the query is left. -/
theorem stripFence_tail (b q c : List Char) (hb : Blank b) (hc : Blank c) (hq : Trimmed q)
    (hbt : backtick ∉ q) :
    TrimSpace (TrimSuffix (TrimPrefix ⟨b ++ q ++ c ++ [backtick, backtick, backtick]⟩ "```")
      "```") = ⟨q⟩ := by
  by_cases hne : b = [] ∧ q = [] ∧ c = []
  · obtain ⟨rfl, rfl, rfl⟩ := hne
    decide
  · rw [TrimPrefix_none _ _ (by rw [fence_data.1]; exact fence_not_prefix b q c hb hc hbt hne)]
    have h := TrimSuffix_append "```" (b ++ q ++ c)
    rw [fence_data.1] at h
    rw [h]
    exact TrimSpace_core b q c hb hc hq


/-- Claim C13, evaluated on the code: the post-processing of `generateSQL`, which is meant to
remove the markdown fence, removes the opening fence by the two fixed prefixes with the tag
`sql` in lower case and without tag.  A fence tagged `SQL` or `sqlite` is not removed cleanly:
the tag, or what is left of it after `sql`, stays at the front of the query, which then is
not the query `SELECT 1` that was wrapped. -/
theorem stripFence_keeps_other_tags :
    stripFence "```SQL\nSELECT 1\n```" = "SQL\nSELECT 1" ∧
    stripFence "```SQL\nSELECT 1\n```" ≠ "SELECT 1" ∧
    stripFence "```sqlite\nSELECT 1\n```" = "ite\nSELECT 1" ∧
    stripFence "```sqlite\nSELECT 1\n```" ≠ "SELECT 1" ∧
    TrimSpace "SELECT 1" = "SELECT 1" ∧ backtick ∉ "SELECT 1".data := by
  refine ⟨by decide, by decide, by decide, by decide, by decide, by decide⟩

/-- The fences that the post-processing of `generateSQL` does remove.  For a query text `q`
without white space at its ends and without backtick, and blank texts `a`, `b`, `c`, `d`, it
maps to exactly `q`: the output that wraps `q` in a fence tagged `sql` (lower case); the
output that wraps `q` in a bare fence, provided the opening fence is followed by white space
or `q` does not begin with `sql`; and the unfenced output `q` surrounded by white space. -/
theorem stripFence_unwraps (a b c d q : List Char) (ha : Blank a) (hb : Blank b)
    (hc : Blank c) (hd : Blank d) (hq : Trimmed q) (hbt : backtick ∉ q) :
    stripFence ⟨a ++ "```sql".data ++ b ++ q ++ c ++ "```".data ++ d⟩ = ⟨q⟩ ∧
    ((b ≠ [] ∨ ¬ "sql".data <+: q) →
      stripFence ⟨a ++ "```".data ++ b ++ q ++ c ++ "```".data ++ d⟩ = ⟨q⟩) ∧
    stripFence ⟨a ++ q ++ d⟩ = ⟨q⟩ := by
  obtain ⟨hf3, hf6, hsql⟩ := fence_data
  have hp3 := TrimPrefix_append "```"
  have hp6 := TrimPrefix_append "```sql"
  have hs3 := TrimSuffix_append "```"
  rw [hf3] at hp3 hs3
  rw [hf6] at hp6
  refine ⟨?_, ?_, ?_⟩
  · have h1 : TrimSpace ⟨a ++ "```sql".data ++ b ++ q ++ c ++ "```".data ++ d⟩ =
        ⟨[backtick, backtick, backtick] ++ ['s', 'q', 'l'] ++
          (b ++ q ++ c ++ [backtick, backtick, backtick])⟩ := by
      have h := TrimSpace_core a ([backtick, backtick, backtick] ++ ['s', 'q', 'l'] ++
        (b ++ q ++ c) ++ [backtick, backtick, backtick]) d ha hd (Trimmed_fenced _ _)
      rw [hf3, hf6]
      simpa [List.append_assoc] using h
    unfold stripFence
    simp only [h1, hp6]
    exact stripFence_tail b q c hb hc hq hbt
  · intro hbq
    have h1 : TrimSpace ⟨a ++ "```".data ++ b ++ q ++ c ++ "```".data ++ d⟩ =
        ⟨[backtick, backtick, backtick] ++
          (b ++ q ++ c ++ [backtick, backtick, backtick])⟩ := by
      have h := TrimSpace_core a ([backtick, backtick, backtick] ++ [] ++
        (b ++ q ++ c) ++ [backtick, backtick, backtick]) d ha hd (Trimmed_fenced _ _)
      rw [hf3]
      simpa [List.append_assoc] using h
    have h2 : ¬ "```sql".data <+: ([backtick, backtick, backtick] ++
        (b ++ q ++ c ++ [backtick, backtick, backtick])) := by
      rw [hf6, List.prefix_append_right_inj]
      exact sql_not_prefix b q c hb hc (by rw [← hsql]; exact hbq)
    unfold stripFence
    simp only [h1, TrimPrefix_none _ _ h2, hp3, hs3]
    exact TrimSpace_core b q c hb hc hq
  · have h1 : TrimSpace ⟨a ++ q ++ d⟩ = ⟨q⟩ := TrimSpace_core a q d ha hd hq
    have hmem : backtick ∈ [backtick, backtick, backtick] := List.mem_cons_self _ _
    have h2 : ¬ "```sql".data <+: q := by
      rw [hf6]
      exact fun h => hbt (h.subset (List.mem_append_left _ hmem))
    have h3 : ¬ "```".data <+: q := by
      rw [hf3]
      exact fun h => hbt (h.subset hmem)
    have h4 : ¬ "```".data <:+ q := by
      rw [hf3]
      exact fun h => hbt (h.subset hmem)
    have h5 : TrimSpace ⟨q⟩ = ⟨q⟩ := by
      have h := TrimSpace_core [] q [] (fun _ h => by cases h) (fun _ h => by cases h) hq
      simpa using h
    unfold stripFence
    simp only [h1, TrimPrefix_none ⟨q⟩ _ h2, TrimPrefix_none ⟨q⟩ _ h3,
      TrimSuffix_none ⟨q⟩ _ h4, h5]

/-- The removed fences at a concrete input: the query `SELECT 1` in a fence tagged `sql`, in
a bare fence and without fence, with white space around. -/
theorem stripFence_unwraps_witness :
    stripFence ⟨[' '] ++ "```sql".data ++ ['\n'] ++ ['S', 'E', 'L', 'E', 'C', 'T', ' ', '1'] ++
      ['\n'] ++ "```".data ++ [' ', '\n']⟩ = ⟨['S', 'E', 'L', 'E', 'C', 'T', ' ', '1']⟩ ∧
    ((['\n'] ≠ [] ∨ ¬ "sql".data <+: ['S', 'E', 'L', 'E', 'C', 'T', ' ', '1']) →
      stripFence ⟨[' '] ++ "```".data ++ ['\n'] ++ ['S', 'E', 'L', 'E', 'C', 'T', ' ', '1'] ++
        ['\n'] ++ "```".data ++ [' ', '\n']⟩ = ⟨['S', 'E', 'L', 'E', 'C', 'T', ' ', '1']⟩) ∧
    stripFence ⟨[' '] ++ ['S', 'E', 'L', 'E', 'C', 'T', ' ', '1'] ++ [' ', '\n']⟩ =
      ⟨['S', 'E', 'L', 'E', 'C', 'T', ' ', '1']⟩ :=
  stripFence_unwraps [' '] ['\n'] ['\n'] [' ', '\n'] ['S', 'E', 'L', 'E', 'C', 'T', ' ', '1']
    (by unfold Blank; decide) (by unfold Blank; decide) (by unfold Blank; decide)
    (by unfold Blank; decide)
    ⟨by intro c h; cases h; decide, by intro c h; cases h; decide⟩ (by decide)

end VoiceBot
